import Mathlib

/-!
# Verification of the createmyvpn WireGuard client core

Shallow embedding of the tunnel-engine core of the `createmyvpn` repository:

* `src-tauri/src/wireguard/config_parser.rs` — `ParsedClientConfig::parse`
  and `ParsedClientConfig::decode_key`,
* `src-tauri/src/wireguard/client_config.rs` — `render_client_config`,
* `src-tauri/src/wireguard/userspace.rs` — `connect`, `disconnect`,
  `is_active`, `setup_routes`, `run_ip_route_add`, `remove_routes`
  (the Linux branch of the routing code, which is the branch the spec's
  claims refer to).

Strings are modelled as `List Char` (`Chars`), bytes as `Nat` values below
256.  Rust library functions used by the code (`str::lines`, `str::trim`,
`str::split_once`, `u16::from_str`, `SocketAddr::from_str`, the base64
crate's STANDARD engine) are given faithful executable models below; each
model notes the Rust behaviour it implements.  The effectful code of
`userspace.rs` is modelled as pure functions from an environment oracle
(outcomes of gateway discovery, TUN creation and spawned route commands)
to a trace of performed effects plus a result.
-/

set_option autoImplicit false

deriving instance DecidableEq for Except

namespace CMV

abbrev Chars := List Char

/-- ASCII whitespace, as removed by Rust's `str::trim` (restricted to the
ASCII range; Rust also removes non-ASCII Unicode whitespace, which this
model does not represent — theorems about symbolic strings therefore carry
an `asciiOnly` hypothesis). -/
def isWsChar (c : Char) : Bool :=
  c = ' ' ∨ c = '\t' ∨ c = '\n' ∨ c = '\r' ∨ c = '\x0b' ∨ c = '\x0c'

/-- All characters are ASCII. -/
def asciiOnly (cs : Chars) : Prop := ∀ c ∈ cs, c.toNat < 128

instance (cs : Chars) : Decidable (asciiOnly cs) := by
  unfold asciiOnly; infer_instance

/-- No newline character occurs (such a string stays on one line of a
rendered config). -/
def noNL (cs : Chars) : Prop := ∀ c ∈ cs, c ≠ '\n'

instance (cs : Chars) : Decidable (noNL cs) := by
  unfold noNL; infer_instance

/-- Model of Rust `str::trim_start` (ASCII fragment). -/
def trimL (cs : Chars) : Chars := cs.dropWhile isWsChar

/-- Model of Rust `str::trim_end` (ASCII fragment). -/
def trimR (cs : Chars) : Chars := (cs.reverse.dropWhile isWsChar).reverse

/-- Model of Rust `str::trim` (ASCII fragment). -/
def trim (cs : Chars) : Chars := trimL (trimR cs)

/-- Prepend `xs` onto the first piece of a piece list (helper for
splitting and for reasoning about splits of appends). -/
def consHead (xs : Chars) : List Chars → List Chars
  | [] => [xs]
  | l :: ls => (xs ++ l) :: ls

/-- Split a char list at every occurrence of `sep` (model of the total
splitting underlying Rust's `str::lines` / `str::split`): always returns
one more piece than there are separators. -/
def splitSep (sep : Char) : Chars → List Chars
  | [] => [[]]
  | c :: cs =>
    if c = sep then [] :: splitSep sep cs
    else consHead [c] (splitSep sep cs)

/-- Strip one trailing `'\r'`, as Rust's `str::lines` does on each line. -/
def stripCR (cs : Chars) : Chars :=
  match cs.reverse with
  | '\r' :: rest => rest.reverse
  | _ => cs

/-- Model of Rust `str::lines`: split on `'\n'`, drop a final empty line
produced by a trailing newline, strip one trailing `'\r'` per line. -/
def rustLines (cs : Chars) : List Chars :=
  let parts := splitSep '\n' cs
  let parts := if parts.getLast? = some [] then parts.dropLast else parts
  parts.map stripCR

/-- Model of Rust `str::split_once (sep)`: the pieces before and after the
first occurrence of `sep`, or `none` when `sep` does not occur. -/
def splitOnce (sep : Char) : Chars → Option (Chars × Chars)
  | [] => none
  | c :: cs =>
    if c = sep then some ([], cs)
    else (splitOnce sep cs).map (fun p => (c :: p.1, p.2))

/-- Does `pat` occur as a contiguous run inside `cs`?  (Model of Rust
`str::contains` for a literal pattern.) -/
def containsSub (cs pat : Chars) : Bool :=
  match cs with
  | [] => decide (pat = [])
  | _ :: tl => decide (cs.take pat.length = pat) || containsSub tl pat

/-- Digit value of a char in the given radix (model of Rust
`char::to_digit`). -/
def toDigit (radix : Nat) (c : Char) : Option Nat :=
  let v : Option Nat :=
    if '0' ≤ c ∧ c ≤ '9' then some (c.toNat - 48)
    else if 'a' ≤ c ∧ c ≤ 'z' then some (c.toNat - 97 + 10)
    else if 'A' ≤ c ∧ c ≤ 'Z' then some (c.toNat - 65 + 10)
    else none
  match v with
  | some d => if d < radix then some d else none
  | none => none

/-- Greedily read the leading digits (in `radix`) of a char list; returns
their values and the unread remainder. -/
def digitsIn (radix : Nat) : Chars → List Nat × Chars
  | [] => ([], [])
  | c :: cs =>
    match toDigit radix c with
    | some d =>
      let p := digitsIn radix cs
      (d :: p.1, p.2)
    | none => ([], c :: cs)

/-- Model of the Rust std `net` parser's `read_number`: reads all leading
digits, fails on no digits, on more than `maxDigits` digits, on a
forbidden leading zero, or when the value overflows the target integer
type (whose maximum is `maxVal`); checked arithmetic on a nonnegative
accumulator overflows exactly when the final value exceeds `maxVal`. -/
def readNumber (radix : Nat) (maxDigits : Option Nat) (allowZeroPfx : Bool)
    (maxVal : Nat) (cs : Chars) : Option (Nat × Chars) :=
  let p := digitsIn radix cs
  let ds := p.1
  if ds = [] then none
  else if (match maxDigits with | some m => decide (ds.length > m) | none => false) then none
  else if ¬allowZeroPfx ∧ ds.length > 1 ∧ ds.head? = some 0 then none
  else
    let v := ds.foldl (fun acc d => acc * radix + d) 0
    if v ≤ maxVal then some (v, p.2) else none

/-- Model of Rust `u16::from_str`: optional `'+'` sign, then decimal
digits; no whitespace, no other characters; value must fit in `u16`.
(A `'-'` sign never yields a valid `u16`.) -/
def parseU16 (v : Chars) : Option Nat :=
  let core : Chars → Option Nat := fun ds =>
    match readNumber 10 none true 65535 ds with
    | some (n, []) => some n
    | _ => none
  match v with
  | '+' :: rest => core rest
  | _ => core v

-- ── Socket address parsing (model of Rust `SocketAddr::from_str`) ─────────

/-- A parsed socket address: either IPv4 with port, or IPv6 (eight 16-bit
groups) with scope id and port, mirroring `std::net::SocketAddr` as
produced by its `FromStr` parser (flowinfo is always 0 there and is
omitted). -/
inductive SockAddr where
  | v4 (a b c d : Nat) (port : Nat)
  | v6 (segs : List Nat) (scope : Nat) (port : Nat)
deriving DecidableEq, Repr

/-- Model of the Rust parser's `read_given_char`: consume exactly `c`. -/
def expectChar (c : Char) : Chars → Option Chars
  | [] => none
  | d :: r => if d = c then some r else none

/-- Model of std's `read_ipv4_addr`: four octets separated by `'.'`, each
read by `read_number(10, max 3 digits, no leading zero, max 255)`. -/
def readIpv4 (cs : Chars) : Option ((Nat × Nat × Nat × Nat) × Chars) :=
  (readNumber 10 (some 3) false 255 cs).bind fun p1 =>
  (expectChar '.' p1.2).bind fun r1 =>
  (readNumber 10 (some 3) false 255 r1).bind fun p2 =>
  (expectChar '.' p2.2).bind fun r2 =>
  (readNumber 10 (some 3) false 255 r2).bind fun p3 =>
  (expectChar '.' p3.2).bind fun r3 =>
  (readNumber 10 (some 3) false 255 r3).bind fun p4 =>
  some ((p1.1, p2.1, p3.1, p4.1), p4.2)

/-- Model of std's `read_groups` for IPv6: read up to `remaining` 16-bit
hex groups, `':'`-separated (`first` marks that the next group needs no
separator); in each slot with at least two groups remaining, first try an
embedded trailing IPv4 address, which fills two groups and ends the read.
Returns the groups read, whether an embedded IPv4 was used, and the
remainder (rewound to before an unconsumed separator). -/
def readGroups : Nat → Bool → Chars → List Nat × Bool × Chars
  | 0, _, cs => ([], false, cs)
  | r + 1, first, cs =>
    let sep : Option Chars :=
      if first then some cs
      else match cs with
        | ':' :: t => some t
        | _ => none
    match sep with
    | none => ([], false, cs)
    | some cs1 =>
      match (if r + 1 ≥ 2 then readIpv4 cs1 else none) with
      | some ((a, b, c, d), rest) => ([a * 256 + b, c * 256 + d], true, rest)
      | none =>
        match readNumber 16 (some 4) true 65535 cs1 with
        | some (g, rest) =>
          let q := readGroups r false rest
          (g :: q.1, q.2.1, q.2.2)
        | none => ([], false, cs)

/-- Model of std's `read_ipv6_addr`: a head run of groups; if fewer than
eight, a literal `"::"` followed by a tail run of at most
`8 - head - 1` groups, with zero groups filling the gap.  An embedded
IPv4 is only allowed at the end of the address. -/
def readIpv6 (cs : Chars) : Option (List Nat × Chars) :=
  let h := readGroups 8 true cs
  let head := h.1
  if head.length = 8 then some (head, h.2.2)
  else if h.2.1 then none
  else
    match h.2.2 with
    | ':' :: ':' :: r2 =>
      let t := readGroups (8 - head.length - 1) true r2
      let tail := t.1
      some (head ++ List.replicate (8 - head.length - tail.length) 0 ++ tail, t.2.2)
    | _ => none

/-- Model of std's `read_port`: `':'` then a decimal `u16`, leading zeros
allowed. -/
def readPort (cs : Chars) : Option (Nat × Chars) :=
  (expectChar ':' cs).bind fun r => readNumber 10 none true 65535 r

/-- Model of std's `read_scope_id`: `'%'` then a decimal `u32`, leading
zeros allowed; absent scope is 0. -/
def readScope (cs : Chars) : Nat × Chars :=
  match cs with
  | '%' :: r =>
    match readNumber 10 none true 4294967295 r with
    | some (n, rest) => (n, rest)
    | none => (0, '%' :: r)
  | _ => (0, cs)

/-- Model of std's `read_socket_addr_v4`. -/
def readSockV4 (cs : Chars) : Option (SockAddr × Chars) :=
  (readIpv4 cs).bind fun q =>
  (readPort q.2).bind fun pr =>
  some (.v4 q.1.1 q.1.2.1 q.1.2.2.1 q.1.2.2.2 pr.1, pr.2)

/-- Model of std's `read_socket_addr_v6`:
`'[' ipv6 (scope)? ']' ':' port`. -/
def readSockV6 (cs : Chars) : Option (SockAddr × Chars) :=
  (expectChar '[' cs).bind fun r0 =>
  (readIpv6 r0).bind fun q =>
  (expectChar ']' (readScope q.2).2).bind fun r2 =>
  (readPort r2).bind fun pr =>
  some (.v6 q.1 (readScope q.2).1 pr.1, pr.2)

/-- Model of Rust `SocketAddr::from_str`: try the IPv4 form, otherwise the
IPv6 form, then require the whole input to have been consumed. -/
def parseSocketAddr (cs : Chars) : Option SockAddr :=
  ((readSockV4 cs).orElse (fun _ => readSockV6 cs)).bind fun p =>
    if p.2 = [] then some p.1 else none

-- ── The config parser (config_parser.rs) ──────────────────────────────────

/-- Model of `AppError` restricted to the variant the WireGuard core
raises; the payload is the formatted message (`AppError::WireGuard(msg)`,
the spec's `ConfigError` / `RoutingError` kinds). -/
inductive AppError where
  | WireGuard (msg : Chars)
deriving DecidableEq, Repr

/-- The scan state of `ParsedClientConfig::parse`'s line loop: the mutable
locals `private_key`, `address`, `dns`, `server_public_key`,
`endpoint_str`, `allowed_ips`, `keepalive` and `section`. -/
structure ScanState where
  private_key : Option Chars
  address : Option Chars
  dns : Option Chars
  server_public_key : Option Chars
  endpoint_str : Option Chars
  allowed_ips : List Chars
  keepalive : Option Nat
  sect : Chars
deriving DecidableEq, Repr

def initScan : ScanState := ⟨none, none, none, none, none, [], none, []⟩

/-- The `match section { ... match key { ... } }` body of the line loop:
how one `key = value` assignment (key and value already trimmed) updates
the scan state. -/
def applyKV (st : ScanState) (key val : Chars) : ScanState :=
  if st.sect = "[Interface]".data then
    if key = "PrivateKey".data then { st with private_key := some val }
    else if key = "Address".data then
      { st with address := some (val.takeWhile (fun c => c ≠ '/')) }
    else if key = "DNS".data then { st with dns := some val }
    else st
  else if st.sect = "[Peer]".data then
    if key = "PublicKey".data then { st with server_public_key := some val }
    else if key = "Endpoint".data then { st with endpoint_str := some val }
    else if key = "AllowedIPs".data then
      { st with allowed_ips := st.allowed_ips ++ (splitSep ',' val).map trim }
    else if key = "PersistentKeepalive".data then
      { st with keepalive := parseU16 val }
    else st
  else st

/-- One iteration of the `for line in conf.lines()` loop of
`ParsedClientConfig::parse`: trim the line, skip blanks / comments /
`=`-less lines, switch section on a `[`-header, otherwise apply the
assignment. -/
def stepLine (st : ScanState) (rawLine : Chars) : ScanState :=
  let line := trim rawLine
  if line = [] then st
  else if line.head? = some '#' then st
  else if line.head? = some '[' then { st with sect := line }
  else
    match splitOnce '=' line with
    | none => st
    | some kv => applyKV st (trim kv.1) (trim kv.2)

def scanLines (st : ScanState) : List Chars → ScanState
  | [] => st
  | l :: ls => scanLines (stepLine st l) ls

/-- The whole line loop of `ParsedClientConfig::parse`. -/
def scan (conf : Chars) : ScanState := scanLines initScan (rustLines conf)

/-- Specification-side reading of a config (for the duplicate-assignment
claim): the trimmed values, in text order, of every `key = value`
assignment to `key` that the line discipline attributes to section
`target`, starting from current section `sec`.  It follows the same line
discipline as the parser loop (trim, skip blanks/comments/`=`-less lines,
section headers switch `sec`). -/
def assignsFrom (sec target key : Chars) : List Chars → List Chars
  | [] => []
  | l :: ls =>
    let line := trim l
    if line = [] then assignsFrom sec target key ls
    else if line.head? = some '#' then assignsFrom sec target key ls
    else if line.head? = some '[' then assignsFrom line target key ls
    else
      match splitOnce '=' line with
      | none => assignsFrom sec target key ls
      | some kv =>
        if sec = target ∧ trim kv.1 = key then trim kv.2 :: assignsFrom sec target key ls
        else assignsFrom sec target key ls

/-- All assignments to `key` in section `target` over a whole config. -/
def assigns (target key conf : Chars) : List Chars :=
  assignsFrom [] target key (rustLines conf)

/-- Model of the struct `ParsedClientConfig`; the endpoint is stored
parsed, as in the source. -/
structure ParsedClientConfig where
  private_key_b64 : Chars
  vpn_address : Chars
  dns : Option Chars
  server_public_key_b64 : Chars
  endpoint : SockAddr
  allowed_ips : List Chars
  persistent_keepalive : Option Nat
deriving DecidableEq, Repr

/-- Model of `ParsedClientConfig::parse`: run the line loop, then require
the four mandatory fields (in source order: PrivateKey, Address,
PublicKey, Endpoint) and parse the endpoint as a socket address. -/
def ParsedClientConfig.parse (conf : Chars) : Except AppError ParsedClientConfig :=
  let st := scan conf
  match st.private_key with
  | none => .error (.WireGuard "Config missing [Interface] PrivateKey".data)
  | some pk =>
    match st.address with
    | none => .error (.WireGuard "Config missing [Interface] Address".data)
    | some addr =>
      match st.server_public_key with
      | none => .error (.WireGuard "Config missing [Peer] PublicKey".data)
      | some pubk =>
        match st.endpoint_str with
        | none => .error (.WireGuard "Config missing [Peer] Endpoint".data)
        | some epRaw =>
          match parseSocketAddr epRaw with
          | none => .error (.WireGuard ("Invalid endpoint address: ".data ++ epRaw))
          | some ep =>
            .ok ⟨pk, addr, st.dns, pubk, ep, st.allowed_ips, st.keepalive⟩

-- ── Base64 (model of the base64 crate's STANDARD engine) ──────────────────

/-- The standard base64 alphabet: sextet value to character. -/
def b64Char (n : Nat) : Char :=
  if n < 26 then Char.ofNat (65 + n)
  else if n < 52 then Char.ofNat (97 + (n - 26))
  else if n < 62 then Char.ofNat (48 + (n - 52))
  else if n = 62 then '+'
  else '/'

/-- The standard base64 alphabet: character to sextet value. -/
def b64Val (c : Char) : Option Nat :=
  if 'A' ≤ c ∧ c ≤ 'Z' then some (c.toNat - 65)
  else if 'a' ≤ c ∧ c ≤ 'z' then some (c.toNat - 97 + 26)
  else if '0' ≤ c ∧ c ≤ '9' then some (c.toNat - 48 + 52)
  else if c = '+' then some 62
  else if c = '/' then some 63
  else none

/-- Standard base64 encoding with padding (the crate's
`general_purpose::STANDARD.encode`); bytes are `Nat` values below 256. -/
def b64encode : List Nat → Chars
  | [] => []
  | [a] => [b64Char (a / 4), b64Char (a % 4 * 16), '=', '=']
  | [a, b] => [b64Char (a / 4), b64Char (a % 4 * 16 + b / 16), b64Char (b % 16 * 4), '=']
  | a :: b :: c :: rest =>
    b64Char (a / 4) :: b64Char (a % 4 * 16 + b / 16) ::
      b64Char (b % 16 * 4 + c / 64) :: b64Char (c % 64) :: b64encode rest

/-- Standard base64 decoding (the crate's
`general_purpose::STANDARD.decode`): requires canonical padding (length a
multiple of four, `'='` only terminal) and zero trailing bits; rejects
characters outside the alphabet.  `none` models a `DecodeError`. -/
def b64decode : Chars → Option (List Nat)
  | [] => some []
  | c1 :: c2 :: c3 :: c4 :: rest =>
    (b64Val c1).bind fun s1 =>
    (b64Val c2).bind fun s2 =>
    if c3 = '=' then
      if c4 = '=' ∧ rest = [] ∧ s2 % 16 = 0 then some [s1 * 4 + s2 / 16] else none
    else
      (b64Val c3).bind fun s3 =>
      if c4 = '=' then
        if rest = [] ∧ s3 % 4 = 0 then some [s1 * 4 + s2 / 16, s2 % 16 * 16 + s3 / 4]
        else none
      else
        (b64Val c4).bind fun s4 =>
        (b64decode rest).map
          (fun bs => (s1 * 4 + s2 / 16) :: (s2 % 16 * 16 + s3 / 4) :: (s3 % 4 * 64 + s4) :: bs)
  | _ => none

/-- Model of `ParsedClientConfig::decode_key`: base64-decode, then require
exactly 32 bytes (`try_into` on `[u8; 32]`).  The first error message
carries the crate's `DecodeError` display, modelled here by its fixed
prefix. -/
def decode_key (b64 : Chars) : Except AppError (List Nat) :=
  match b64decode b64 with
  | none => .error (.WireGuard "Failed to decode WireGuard key: ".data)
  | some bytes =>
    if bytes.length = 32 then .ok bytes
    else .error (.WireGuard "WireGuard key must be exactly 32 bytes".data)

-- ── The client config renderer (client_config.rs) ─────────────────────────

/-- Fuel-driven digit extraction (structural recursion so that the kernel
can evaluate it); with fuel `f` it is correct for all `n < 10 ^ (f + 1)`. -/
def natDigitsF : Nat → Nat → List Nat
  | 0, n => [n]
  | f + 1, n => if n < 10 then [n] else natDigitsF f (n / 10) ++ [n % 10]

/-- Canonical decimal digit list of a natural number (most significant
first); the digit sequence produced by Rust's integer `Display`.  Fuel `n`
always suffices since `n < 10 ^ (n + 1)`. -/
def natDigits (n : Nat) : List Nat := natDigitsF n n

def digitChar : Nat → Char
  | 0 => '0' | 1 => '1' | 2 => '2' | 3 => '3' | 4 => '4'
  | 5 => '5' | 6 => '6' | 7 => '7' | 8 => '8' | _ => '9'

/-- Rust `Display` of an unsigned integer: canonical decimal digits. -/
def natDec (n : Nat) : Chars := (natDigits n).map digitChar

/-- The textual form `a.b.c.d` of an IPv4 address (Rust `Ipv4Addr`
`Display`); every string Rust's IPv4 parser accepts has this form with
each octet at most 255. -/
def ipv4Str (a b c d : Nat) : Chars :=
  natDec a ++ '.' :: natDec b ++ '.' :: natDec c ++ '.' :: natDec d

/-- Model of `render_client_config` (client_config.rs): the exact template
text with the four parameters interpolated. -/
def render_client_config (client_private_key server_public_key endpoint_ip : Chars)
    (listen_port : Nat) : Chars :=
  "[Interface]\nPrivateKey = ".data ++ client_private_key ++
  "\nAddress = 10.8.0.2/32\nDNS = 1.1.1.1\n\n[Peer]\nPublicKey = ".data ++
  server_public_key ++
  "\nEndpoint = ".data ++ endpoint_ip ++ ':' :: natDec listen_port ++
  "\nAllowedIPs = 0.0.0.0/0\nPersistentKeepalive = 25\n".data

-- ── The tunnel supervisor and routing controller (userspace.rs) ───────────

/-- Observable effects of `connect` / `disconnect` on the host (Linux
branch).  A route effect is recorded when the corresponding subprocess was
successfully spawned (`Command::output` returned `Ok`); `tunCreate` when
`tun2::create` succeeded; `tunDrop` models Rust dropping the local TUN
value when `connect` returns early with an error; `stopSignal` the oneshot
send; `spawnLoop` the tunnel-loop thread spawn. -/
inductive Effect where
  | tunCreate
  | tunDrop
  | routeAddVia (dst gw : Chars)
  | routeAddDev (cidr : Chars)
  | routeDelDev (cidr : Chars)
  | routeDelVia (dst gw : Chars)
  | stopSignal
  | spawnLoop
deriving DecidableEq, Repr

/-- Model of the `ActiveTunnel` record (the stop-signal sender is not
data-relevant and is omitted). -/
structure ActiveTunnel where
  server_ip : Chars
  gateway : Option Chars
deriving DecidableEq, Repr

/-- Environment oracle for the effectful calls `connect` makes: the result
of `get_default_gateway`, whether `tun2::create` succeeds, and whether
each `ip route add` subprocess can be spawned (`Command::output` is `Ok`).
A spawned command's own exit status is ignored by the source (nonzero
status is only logged), so it does not appear here. -/
structure RouteEnv where
  gateway : Option Chars
  tunOk : Bool
  spawnAddVia : Chars → Chars → Bool
  spawnAddDev : Chars → Bool

/-- The error message of `setup_routes` when full-tunnel routing is
requested but no default gateway was discovered (the spec's
`RoutingError`). -/
def fullTunnelMsg : Chars :=
  ("Cannot set up full-tunnel VPN routing: the system's default gateway could not be detected.\n\nWithout a known gateway, WireGuard handshake packets would loop through the tunnel and the connection would never establish.\n\nCheck that a default route exists:\n\nip route show default\n\nIf missing, add one (replace GW and DEV with your values):\n\nsudo ip route add default via GW dev DEV").data

/-- Model of `run_ip_route_add` (Linux): spawn
`ip route add <cidr> dev createmyvpn0`; an `Err` from `Command::output`
(spawn failure) becomes an error, a nonzero exit status is only logged. -/
def run_ip_route_add (env : RouteEnv) (cidr : Chars) :
    List Effect × Except AppError Unit :=
  if env.spawnAddDev cidr then ([.routeAddDev cidr], .ok ())
  else ([], .error (.WireGuard ("ip route add ".data ++ cidr)))

/-- Sequencing of two effectful steps (the `?` operator): the second runs
only when the first succeeded; effects accumulate. -/
def seqE (x : List Effect × Except AppError Unit)
    (y : Unit → List Effect × Except AppError Unit) :
    List Effect × Except AppError Unit :=
  match x with
  | (es, .error e) => (es, .error e)
  | (es, .ok _) => (es ++ (y ()).1, (y ()).2)

/-- The `for cidr in allowed_ips` loop of `setup_routes` (Linux): the
full-tunnel marker is split into the two /1 halves, every other entry is
added verbatim; each addition can fail with `?`. -/
def addAllowedRoutes (env : RouteEnv) : List Chars → List Effect × Except AppError Unit
  | [] => ([], .ok ())
  | cidr :: rest =>
    let step :=
      if cidr = "0.0.0.0/0".data then
        seqE (run_ip_route_add env "0.0.0.0/1".data)
          (fun _ => run_ip_route_add env "128.0.0.0/1".data)
      else run_ip_route_add env cidr
    seqE step (fun _ => addAllowedRoutes env rest)

/-- Model of `setup_routes` (Linux branch): pin the server to the real
gateway when one is known; fail with the full-tunnel routing error when no
gateway is known and the tunnel is full-tunnel; then add the allowed-IPs
routes. -/
def setup_routes (env : RouteEnv) (server_ip : Chars) (gateway : Option Chars)
    (allowed_ips : List Chars) : List Effect × Except AppError Unit :=
  let full_tunnel := allowed_ips.any (fun ip => ip = "0.0.0.0/0".data)
  match gateway with
  | some gw =>
    if env.spawnAddVia server_ip gw then
      let rest := addAllowedRoutes env allowed_ips
      (.routeAddVia server_ip gw :: rest.1, rest.2)
    else ([], .error (.WireGuard "ip route add (server): ".data))
  | none =>
    if full_tunnel then ([], .error (.WireGuard fullTunnelMsg))
    else addAllowedRoutes env allowed_ips

/-- Model of `remove_routes` (Linux): best-effort deletion of the two /1
halves and then of the endpoint pin; never fails. -/
def remove_routes (server_ip : Chars) (gateway : Option Chars) : List Effect :=
  [.routeDelDev "0.0.0.0/1".data, .routeDelDev "128.0.0.0/1".data] ++
    (match gateway with
     | some gw => [.routeDelVia server_ip gw]
     | none => [])

/-- Model of `disconnect`: if a tunnel is active, fire the stop signal,
remove its routes and drop the record; always returns `Ok`. -/
def disconnect (st : Option ActiveTunnel) :
    List Effect × Option ActiveTunnel × Except AppError Unit :=
  match st with
  | none => ([], none, .ok ())
  | some a => (.stopSignal :: remove_routes a.server_ip a.gateway, none, .ok ())

/-- Model of `is_active`. -/
def is_active (st : Option ActiveTunnel) : Bool := st.isSome

/-- `endpoint.ip().to_string()`.  For IPv4 this is the exact Rust
rendering `a.b.c.d`.  For IPv6 the model joins the hex groups with `':'`
without the zero-run compression Rust's `Display` performs; no claim
depends on the textual form of an IPv6 server address. -/
def sockIpString : SockAddr → Chars
  | .v4 a b c d _ => ipv4Str a b c d
  | .v6 segs _ _ =>
    match segs.map (fun g => (Nat.toDigits 16 g)) with
    | [] => []
    | g :: gs => gs.foldl (fun acc h => acc ++ ':' :: h) g

/-- The outcome of one `connect` call: the effect trace, the tunnel state
left behind, and the returned result. -/
structure ConnectOut where
  effects : List Effect
  state : Option ActiveTunnel
  result : Except AppError Unit
deriving Repr

/-- Model of `connect` (Linux branch): best-effort disconnect of any
prior tunnel, parse the config, decode both keys, capture the default
gateway, create the TUN device, install routes, spawn the packet loop and
store the `ActiveTunnel` record.  Construction of the `Tunn` protocol
state and the keepalive default (`persistent_keepalive.or(Some 25)`) have
no observable effect and are not represented.  On every early error
return after TUN creation, the local `tun` value is dropped by Rust
(`tunDrop`); routes already installed are not removed. -/
def connect (env : RouteEnv) (prior : Option ActiveTunnel) (config_str : Chars) :
    ConnectOut :=
  let d := disconnect prior
  let dEff := d.1
  match ParsedClientConfig.parse config_str with
  | .error e => ⟨dEff, none, .error e⟩
  | .ok cfg =>
    match decode_key cfg.private_key_b64 with
    | .error e => ⟨dEff, none, .error e⟩
    | .ok _ =>
      match decode_key cfg.server_public_key_b64 with
      | .error e => ⟨dEff, none, .error e⟩
      | .ok _ =>
        let gateway := env.gateway
        if env.tunOk then
          let server_ip := sockIpString cfg.endpoint
          let r := setup_routes env server_ip gateway cfg.allowed_ips
          match r.2 with
          | .error e =>
            ⟨dEff ++ Effect.tunCreate :: r.1 ++ [Effect.tunDrop], none, .error e⟩
          | .ok _ =>
            ⟨dEff ++ Effect.tunCreate :: r.1 ++ [Effect.spawnLoop],
              some ⟨server_ip, gateway⟩, .ok ()⟩
        else
          ⟨dEff, none, .error (.WireGuard "Failed to create TUN device: ".data)⟩

-- ── Concrete instances used by witnesses and counterexamples ──────────────

/-- The canonical client config from the parser's test suite. -/
def validConfig : Chars :=
  ("[Interface]\nPrivateKey = yAnz5TF+lXXJte14tji3zlMNq+hd2rYUIgJBgB3fBmk=\nAddress = 10.8.0.2/32\nDNS = 1.1.1.1\n\n[Peer]\nPublicKey = xTIBA5rboUvnH4htodjb6e697QjLERt1NAB4mZqp8Dg=\nEndpoint = 1.2.3.4:51820\nAllowedIPs = 0.0.0.0/0\nPersistentKeepalive = 25\n").data

/-- The parse of `validConfig`. -/
def validParsed : ParsedClientConfig :=
  ⟨"yAnz5TF+lXXJte14tji3zlMNq+hd2rYUIgJBgB3fBmk=".data, "10.8.0.2".data,
    some "1.1.1.1".data, "xTIBA5rboUvnH4htodjb6e697QjLERt1NAB4mZqp8Dg=".data,
    .v4 1 2 3 4 51820, ["0.0.0.0/0".data], some 25⟩

/-- Environment: no default gateway discoverable, everything else fine. -/
def envNoGw : RouteEnv := ⟨none, true, fun _ _ => true, fun _ => true⟩

/-- Environment: gateway known, but spawning
`ip route add 0.0.0.0/1 dev createmyvpn0` fails (e.g. fork failure), so
`setup_routes` errors after the endpoint pin was installed. -/
def envPinOnly : RouteEnv :=
  ⟨some "192.168.1.1".data, true, fun _ _ => true, fun c => c != "0.0.0.0/1".data⟩

/-- Environment: gateway known and every subprocess spawns fine. -/
def envAllOk : RouteEnv := ⟨some "192.168.1.1".data, true, fun _ _ => true, fun _ => true⟩

/-- `validConfig` with a different endpoint (used to instantiate general
theorems on a second concrete input). -/
def validConfig2 : Chars :=
  ("[Interface]\nPrivateKey = yAnz5TF+lXXJte14tji3zlMNq+hd2rYUIgJBgB3fBmk=\nAddress = 10.8.0.2/32\nDNS = 1.1.1.1\n\n[Peer]\nPublicKey = xTIBA5rboUvnH4htodjb6e697QjLERt1NAB4mZqp8Dg=\nEndpoint = 9.9.9.9:7\nAllowedIPs = 0.0.0.0/0\nPersistentKeepalive = 25\n").data

/-- The parse of `validConfig2`. -/
def validParsed2 : ParsedClientConfig :=
  ⟨"yAnz5TF+lXXJte14tji3zlMNq+hd2rYUIgJBgB3fBmk=".data, "10.8.0.2".data,
    some "1.1.1.1".data, "xTIBA5rboUvnH4htodjb6e697QjLERt1NAB4mZqp8Dg=".data,
    .v4 9 9 9 9 7, ["0.0.0.0/0".data], some 25⟩

/-- A valid config whose `PersistentKeepalive` value is the parameter `v`
(template for the keepalive claim). -/
def kaConfig (v : Chars) : Chars :=
  ("[Interface]\nPrivateKey = k\nAddress = 10.8.0.2/32\n\n[Peer]\nPublicKey = p\nEndpoint = 1.2.3.4:51820\nPersistentKeepalive = ").data ++ v ++ ['\n']

/-- A config whose `Endpoint` is an IPv6 socket address. -/
def conf6 : Chars :=
  ("[Interface]\nPrivateKey = k\nAddress = 10.8.0.2/32\n\n[Peer]\nPublicKey = p\nEndpoint = [2001:db8::1]:51820\nAllowedIPs = 0.0.0.0/0\n").data

/-- The parse of `conf6`: an IPv6 endpoint parses fine. -/
def conf6Parsed : ParsedClientConfig :=
  ⟨"k".data, "10.8.0.2".data, none, "p".data,
    .v6 [8193, 3512, 0, 0, 0, 0, 0, 1] 0 51820, ["0.0.0.0/0".data], none⟩

/-- A config missing only the `Address` assignment. -/
def confNoAddr : Chars :=
  ("[Interface]\nPrivateKey = x\n[Peer]\nPublicKey = y\nEndpoint = 1.2.3.4:1\n").data

/-- A config with duplicate scalar assignments and two `AllowedIPs`
lines (the last `PersistentKeepalive` value is malformed). -/
def confDup : Chars :=
  ("[Interface]\nPrivateKey = a\nPrivateKey = b\nAddress = 1.2.3.4/24\nDNS = 9.9.9.9\nDNS = 8.8.8.8\n[Peer]\nPublicKey = p\nEndpoint = 1.2.3.4:51820\nAllowedIPs = 10.0.0.0/8, 192.168.1.0/24\nAllowedIPs = 0.0.0.0/0\nPersistentKeepalive = 25\nPersistentKeepalive = abc\n").data

/-- The parse of `confDup`: scalars take the last assignment, the
allowed-IPs lists accumulate, the malformed last keepalive yields none. -/
def confDupParsed : ParsedClientConfig :=
  ⟨"b".data, "1.2.3.4".data, some "8.8.8.8".data, "p".data, .v4 1 2 3 4 51820,
    ["10.0.0.0/8".data, "192.168.1.0/24".data, "0.0.0.0/0".data], none⟩

-- ── Lemmas about the routing controller and supervisor ────────────────────

theorem seqE_mem {eff : Effect} (x : List Effect × Except AppError Unit)
    (y : Unit → List Effect × Except AppError Unit)
    (h : eff ∈ (seqE x y).1) : eff ∈ x.1 ∨ eff ∈ (y ()).1 := by
  obtain ⟨es, r⟩ := x
  cases r <;> simp_all [seqE]

theorem run_ip_route_add_mem {eff : Effect} (env : RouteEnv) (c : Chars)
    (h : eff ∈ (run_ip_route_add env c).1) : eff = .routeAddDev c := by
  unfold run_ip_route_add at h
  split at h <;> simp_all

/-- Every effect of the allowed-IPs loop is a dev-route addition, and
never of the literal full-tunnel CIDR. -/
theorem addAllowedRoutes_shape (env : RouteEnv) (allowed : List Chars) :
    ∀ eff ∈ (addAllowedRoutes env allowed).1,
      ∃ c, eff = .routeAddDev c ∧ c ≠ "0.0.0.0/0".data := by
  induction allowed with
  | nil => intro eff h; simp [addAllowedRoutes] at h
  | cons cidr rest ih =>
    intro eff h
    rcases seqE_mem _ _ h with h1 | h2
    · by_cases hc : cidr = "0.0.0.0/0".data
      · simp only [hc, if_true] at h1
        rcases seqE_mem _ _ h1 with h3 | h3 <;>
          exact ⟨_, run_ip_route_add_mem env _ h3, by decide⟩
      · simp only [hc, if_false] at h1
        exact ⟨cidr, run_ip_route_add_mem env _ h1, hc⟩
    · exact ih eff h2

/-- Every effect of `setup_routes` is a route addition: either the
endpoint pin via the gateway, or a dev route that is never the literal
`0.0.0.0/0`. -/
theorem setup_routes_shape (env : RouteEnv) (s : Chars) (g : Option Chars)
    (allowed : List Chars) :
    ∀ eff ∈ (setup_routes env s g allowed).1,
      (∃ gw, eff = .routeAddVia s gw) ∨
        (∃ c, eff = .routeAddDev c ∧ c ≠ "0.0.0.0/0".data) := by
  intro eff h
  unfold setup_routes at h
  rcases g with _ | gw
  · simp only at h
    split at h
    · simp at h
    · exact .inr (addAllowedRoutes_shape env allowed eff h)
  · simp only at h
    split at h
    · rcases List.mem_cons.mp h with h1 | h1
      · exact .inl ⟨gw, h1⟩
      · exact .inr (addAllowedRoutes_shape env allowed eff h1)
    · simp at h

-- ── Claims C1, C2, C3, C8 ─────────────────────────────────────────────────

/-- C1 (amended): when gateway discovery returns none, the TUN device can
be created, both keys decode, and the parsed allowed-IPs list contains the
full-tunnel marker `0.0.0.0/0`, `connect` fails with the full-tunnel
routing error — but only *after* the TUN device has been created (which is
then dropped): the whole effect trace is `[tunCreate, tunDrop]`, with no
route ever added. -/
theorem c1_theorem (env : RouteEnv) (conf : Chars) (cfg : ParsedClientConfig)
    (hParse : ParsedClientConfig.parse conf = .ok cfg)
    (hPk : (decode_key cfg.private_key_b64).isOk = true)
    (hPub : (decode_key cfg.server_public_key_b64).isOk = true)
    (hGw : env.gateway = none)
    (hTun : env.tunOk = true)
    (hFull : "0.0.0.0/0".data ∈ cfg.allowed_ips) :
    (connect env none conf).result = .error (.WireGuard fullTunnelMsg) ∧
      (connect env none conf).effects = [.tunCreate, .tunDrop] := by
  cases hd1 : decode_key cfg.private_key_b64 with
  | error e => rw [hd1] at hPk; simp [Except.isOk, Except.toBool] at hPk
  | ok k1 =>
  cases hd2 : decode_key cfg.server_public_key_b64 with
  | error e => rw [hd2] at hPub; simp [Except.isOk, Except.toBool] at hPub
  | ok k2 =>
  have hFullB : cfg.allowed_ips.any (fun ip => ip = "0.0.0.0/0".data) = true := by
    rw [List.any_eq_true]; exact ⟨_, hFull, by simp⟩
  have hsr : setup_routes env (sockIpString cfg.endpoint) none cfg.allowed_ips
      = ([], .error (.WireGuard fullTunnelMsg)) := by
    unfold setup_routes; simp [hFullB]
  unfold connect
  simp only [disconnect, hParse, hd1, hd2, hTun, if_true, hGw, hsr]
  constructor <;> trivial

set_option maxRecDepth 100000 in
/-- C1 counterexample to the claim as stated: on `validConfig` (full
tunnel) with no discoverable gateway, `connect` does return an error — but
a TUN-creation effect *has* happened before it, contrary to "before the
TUN device is created". -/
theorem c1_counterexample :
    (connect envNoGw none validConfig).result ≠ .ok () ∧
      Effect.tunCreate ∈ (connect envNoGw none validConfig).effects := by
  constructor
  · decide
  · decide

set_option maxRecDepth 100000 in
/-- Witness for `c1_theorem` at a concrete input. -/
theorem c1_witness :
    (connect envNoGw none validConfig2).result = .error (.WireGuard fullTunnelMsg) ∧
      Effect.tunCreate ∈ (connect envNoGw none validConfig2).effects := by
  have h := c1_theorem envNoGw validConfig2 validParsed2 (by decide) (by decide) (by decide)
    rfl rfl (by decide)
  exact ⟨h.1, by rw [h.2]; simp⟩

/-- C2 (amended): whenever `connect` (from the idle state) returns an
error, no `ActiveTunnel` record exists and a created TUN device has been
dropped — but routes already installed are *not* removed: the trace of a
failed `connect` contains no route-deletion effect at all. -/
theorem c2_theorem (env : RouteEnv) (conf : Chars) (e : AppError)
    (hErr : (connect env none conf).result = .error e) :
    (connect env none conf).state = none ∧
    (∀ c, Effect.routeDelDev c ∉ (connect env none conf).effects) ∧
    (∀ d g, Effect.routeDelVia d g ∉ (connect env none conf).effects) ∧
    (Effect.tunCreate ∈ (connect env none conf).effects →
      Effect.tunDrop ∈ (connect env none conf).effects) := by
  unfold connect at hErr ⊢
  simp only [disconnect] at hErr ⊢
  cases hParse : ParsedClientConfig.parse conf with
  | error e1 => simp [hParse]
  | ok cfg =>
  simp only [hParse] at hErr ⊢
  cases hd1 : decode_key cfg.private_key_b64 with
  | error e1 => simp [hd1]
  | ok k1 =>
  simp only [hd1] at hErr ⊢
  cases hd2 : decode_key cfg.server_public_key_b64 with
  | error e1 => simp [hd2]
  | ok k2 =>
  simp only [hd2] at hErr ⊢
  cases hTun : env.tunOk with
  | false => simp [hTun]
  | true =>
  simp only [hTun, if_true] at hErr ⊢
  cases hsr : (setup_routes env (sockIpString cfg.endpoint) env.gateway cfg.allowed_ips).2 with
  | ok u => rw [hsr] at hErr; simp at hErr
  | error e2 =>
  dsimp only at hErr ⊢
  simp only [List.nil_append]
  refine ⟨trivial, ?_, ?_, ?_⟩
  · intro c hc
    rcases List.mem_cons.mp hc with h1 | h1
    · exact absurd h1 (by simp)
    · rcases List.mem_append.mp h1 with h2 | h2
      · rcases setup_routes_shape _ _ _ _ _ h2 with ⟨gw2, he⟩ | ⟨c2, he, _⟩ <;> simp at he
      · simp at h2
  · intro d g hc
    rcases List.mem_cons.mp hc with h1 | h1
    · exact absurd h1 (by simp)
    · rcases List.mem_append.mp h1 with h2 | h2
      · rcases setup_routes_shape _ _ _ _ _ h2 with ⟨gw2, he⟩ | ⟨c2, he, _⟩ <;> simp at he
      · simp at h2
  · intro _
    simp

set_option maxRecDepth 100000 in
/-- C2 counterexample to the claim as stated: with a known gateway but a
spawn failure on `ip route add 0.0.0.0/1`, `connect` fails *after* having
installed the endpoint-pin route, and the trace contains no deletion of
it: the net effect of the failed `connect` on host routing is not empty. -/
theorem c2_counterexample :
    (connect envPinOnly none validConfig).result ≠ .ok () ∧
      (connect envPinOnly none validConfig).effects =
        [.tunCreate, .routeAddVia "1.2.3.4".data "192.168.1.1".data, .tunDrop] := by
  constructor
  · decide
  · decide

set_option maxRecDepth 100000 in
/-- Witness for `c2_theorem` at a concrete input (the empty config, whose
parse fails). -/
theorem c2_witness :
    (connect envNoGw none ([] : Chars)).state = none ∧
    (∀ c, Effect.routeDelDev c ∉ (connect envNoGw none ([] : Chars)).effects) ∧
    (∀ d g, Effect.routeDelVia d g ∉ (connect envNoGw none ([] : Chars)).effects) ∧
    (Effect.tunCreate ∈ (connect envNoGw none ([] : Chars)).effects →
      Effect.tunDrop ∈ (connect envNoGw none ([] : Chars)).effects) :=
  c2_theorem envNoGw [] (.WireGuard "Config missing [Interface] PrivateKey".data) (by decide)

/-- C3: with `allowed_ips = ["0.0.0.0/0"]` and a discovered gateway (and
every route command spawnable), the route additions planned by
`setup_routes` are exactly the endpoint pin via the gateway, then
`0.0.0.0/1` and `128.0.0.0/1` through the TUN, in that order; moreover no
run of `setup_routes` whatsoever adds a literal `0.0.0.0/0` dev route. -/
theorem c3_theorem (env : RouteEnv) (server gw : Chars)
    (hPin : env.spawnAddVia server gw = true)
    (h1 : env.spawnAddDev "0.0.0.0/1".data = true)
    (h2 : env.spawnAddDev "128.0.0.0/1".data = true) :
    setup_routes env server (some gw) ["0.0.0.0/0".data] =
      ([.routeAddVia server gw, .routeAddDev "0.0.0.0/1".data,
        .routeAddDev "128.0.0.0/1".data], .ok ())
    ∧ ∀ (env2 : RouteEnv) (s2 : Chars) (g2 : Option Chars) (al : List Chars),
        Effect.routeAddDev "0.0.0.0/0".data ∉ (setup_routes env2 s2 g2 al).1 := by
  constructor
  · simp [setup_routes, hPin, addAllowedRoutes, seqE, run_ip_route_add, h1, h2]
  · intro env2 s2 g2 al h
    rcases setup_routes_shape env2 s2 g2 al _ h with ⟨gw2, he⟩ | ⟨c, he, hc⟩
    · simp at he
    · simp only [Effect.routeAddDev.injEq] at he
      exact hc he.symm

/-- Witness for `c3_theorem` at a concrete input. -/
theorem c3_witness : setup_routes envAllOk "1.2.3.4".data (some "192.168.1.1".data)
      ["0.0.0.0/0".data] =
    ([.routeAddVia "1.2.3.4".data "192.168.1.1".data, .routeAddDev "0.0.0.0/1".data,
      .routeAddDev "128.0.0.0/1".data], .ok ()) :=
  (c3_theorem envAllOk "1.2.3.4".data "192.168.1.1".data rfl rfl rfl).1

/-- C8: `disconnect` always returns `Ok` — also from the idle state, where
it is a no-op — and immediately afterwards `is_active` is `false` (the
`ActiveTunnel` record is gone). -/
theorem c8_theorem (st : Option ActiveTunnel) :
    (disconnect st).2.2 = .ok () ∧ is_active (disconnect st).2.1 = false ∧
      disconnect none = ([], none, .ok ()) := by
  cases st <;> simp [disconnect, is_active]


-- ── String, digit and socket-address lemmas ──────────────────────────────

-- ── Lemma kit: trim / splitSep / splitOnce / stripCR ──────────────────────

theorem trimL_cons_of_not_ws {c : Char} (cs : Chars) (h : isWsChar c = false) :
    trimL (c :: cs) = c :: cs := by
  simp [trimL, List.dropWhile_cons, h]

theorem trimR_append (x y : Chars) :
    trimR (x ++ y) = if trimR y = [] then trimR x else x ++ trimR y := by
  unfold trimR
  rw [List.reverse_append, List.dropWhile_append]
  split
  · next h =>
    rw [if_pos]
    rw [List.isEmpty_iff] at h
    rw [h]
    simp
  · next h =>
    rw [if_neg]
    · simp
    · rw [List.isEmpty_iff] at h
      intro hc
      exact h (by rw [← List.reverse_reverse (List.dropWhile _ y.reverse), hc]; simp)

theorem trimR_append_of_self {k : Chars} (x : Chars) (hk : trimR k = k) (hne : k ≠ []) :
    trimR (x ++ k) = x ++ k := by
  rw [trimR_append, hk, if_neg hne]

theorem trimR_idem (l : Chars) : trimR (trimR l) = trimR l := by
  unfold trimR
  rw [List.reverse_reverse]
  congr 1
  induction l.reverse with
  | nil => simp
  | cons c cs ih =>
    rw [List.dropWhile_cons]
    split
    · exact ih
    · next h => rw [List.dropWhile_cons, if_neg h]

theorem trim_of_parts {k : Chars} (hL : trimL k = k) (hR : trimR k = k) : trim k = k := by
  rw [trim, hR, hL]

/-- The last character of a right-trimmed nonempty list is not whitespace. -/
theorem trimR_last_not_ws {k : Chars} (hk : trimR k = k) (hne : k ≠ []) :
    ∃ c cs, k.reverse = c :: cs ∧ isWsChar c = false := by
  have hrev : k.reverse ≠ [] := by simpa using hne
  obtain ⟨c, cs, hc⟩ := List.exists_cons_of_ne_nil hrev
  refine ⟨c, cs, hc, ?_⟩
  have hds : List.dropWhile isWsChar k.reverse = k.reverse := by
    have := congrArg List.reverse hk
    rwa [trimR, List.reverse_reverse] at this
  rw [List.dropWhile_eq_self_iff] at hds
  have := hds (by rw [hc]; simp)
  rw [Bool.not_eq_true] at this
  rwa [show (k.reverse.get ⟨0, by rw [hc]; simp⟩) = c from by simp [hc]] at this

theorem stripCR_of_trimR {k : Chars} (hk : trimR k = k) : stripCR k = k := by
  by_cases hne : k = []
  · subst hne; rfl
  · obtain ⟨c, cs, hc, hw⟩ := trimR_last_not_ws hk hne
    unfold stripCR
    rw [hc]
    have : c ≠ '\r' := by rintro rfl; simp [isWsChar] at hw
    simp [this]

theorem splitSep_cons (sep c : Char) (cs : Chars) :
    splitSep sep (c :: cs) =
      if c = sep then [] :: splitSep sep cs else consHead [c] (splitSep sep cs) := rfl

theorem consHead_consHead (x y : Chars) (S : List Chars) :
    consHead x (consHead y S) = consHead (x ++ y) S := by
  cases S <;> simp [consHead]

theorem splitSep_ne_nil (sep : Char) (cs : Chars) : splitSep sep cs ≠ [] := by
  cases cs with
  | nil => simp [splitSep]
  | cons c tl =>
    unfold splitSep
    split
    · simp
    · rcases h : splitSep sep tl with _ | ⟨l, ls⟩ <;> simp [consHead, h]

theorem splitSep_append_noSep {sep : Char} (xs ys : Chars) (h : ∀ c ∈ xs, c ≠ sep) :
    splitSep sep (xs ++ ys) = consHead xs (splitSep sep ys) := by
  induction xs with
  | nil =>
    cases hs : splitSep sep ys with
    | nil => exact absurd hs (splitSep_ne_nil sep ys)
    | cons l ls => simp [consHead, hs]
  | cons c tl ih =>
    have hc : c ≠ sep := h c (by simp)
    rw [List.cons_append, splitSep_cons, if_neg hc, ih (fun d hd => h d (by simp [hd])),
      consHead_consHead]
    rfl

theorem splitSep_cons_sep (sep : Char) (ys : Chars) :
    splitSep sep (sep :: ys) = [] :: splitSep sep ys := by
  rw [splitSep_cons, if_pos rfl]

theorem splitOnce_append_sep {sep : Char} (xs r : Chars) (h : ∀ c ∈ xs, c ≠ sep) :
    splitOnce sep (xs ++ sep :: r) = some (xs, r) := by
  induction xs with
  | nil => simp [splitOnce]
  | cons c tl ih =>
    have hc : c ≠ sep := h c (by simp)
    rw [List.cons_append]
    unfold splitOnce
    rw [if_neg hc, ih (fun d hd => h d (by simp [hd]))]
    rfl

theorem trimL_cons_ws {c : Char} (cs : Chars) (h : isWsChar c = true) :
    trimL (c :: cs) = trimL cs := by
  simp [trimL, List.dropWhile_cons, h]

theorem trim_keyval_line (key v : Chars) (c : Char) (ktl : Chars)
    (hk : key = c :: ktl) (hws : isWsChar c = false) :
    trim (key ++ ' ' :: '=' :: ' ' :: v) =
      if trimR v = [] then key ++ [' ', '='] else key ++ ' ' :: '=' :: ' ' :: trimR v := by
  have hA : trimR (key ++ [' ', '=']) = key ++ [' ', '='] := by
    rw [show key ++ [' ', '='] = key ++ ([' '] ++ ['=']) from by simp, ← List.append_assoc,
      trimR_append]
    norm_num [show trimR ['='] = ['='] from by decide]
  have hR : trimR (key ++ ' ' :: '=' :: ' ' :: v)
      = if trimR v = [] then key ++ [' ', '='] else key ++ ' ' :: '=' :: ' ' :: trimR v := by
    rw [show key ++ ' ' :: '=' :: ' ' :: v = (key ++ [' ', '='] ++ [' ']) ++ v from by simp,
      trimR_append]
    split
    · rw [trimR_append]
      norm_num [show trimR [' '] = ([] : Chars) from by decide, hA]
    · simp
  rw [trim, hR]
  split
  · rw [hk, List.cons_append, trimL_cons_of_not_ws _ hws]
  · rw [hk, List.cons_append, trimL_cons_of_not_ws _ hws]

theorem stepLine_keyval (st : ScanState) (key v : Chars) (c : Char) (ktl : Chars)
    (hk : key = c :: ktl) (hws : isWsChar c = false) (hsharp : c ≠ '#') (hbr : c ≠ '[')
    (heq : ∀ d ∈ key, d ≠ '=') (hkR : trimR key = key) :
    stepLine st (key ++ ' ' :: '=' :: ' ' :: v) = applyKV st key (trim v) := by
  have hkey' : trim (key ++ [' ']) = key := by
    rw [trim, trimR_append, if_pos (show trimR [' '] = ([] : Chars) from by decide), hkR, hk,
      trimL_cons_of_not_ws _ hws]
  have hmem : ∀ d ∈ key ++ [' '], d ≠ '=' := by
    intro d hd
    rcases List.mem_append.mp hd with h1 | h1
    · exact heq d h1
    · simp at h1; simp [h1]
  unfold stepLine
  rw [trim_keyval_line key v c ktl hk hws]
  split
  · next hv =>
    have hval : trim v = [] := by rw [trim, hv]; rfl
    rw [if_neg (show ¬(key ++ [' ', '='] : Chars) = [] from by simp [hk]),
      if_neg (show ¬((key ++ [' ', '='] : Chars).head? = some '#') from by simp [hk, hsharp]),
      if_neg (show ¬((key ++ [' ', '='] : Chars).head? = some '[') from by simp [hk, hbr]),
      show (key ++ [' ', '='] : Chars) = (key ++ [' ']) ++ '=' :: [] from by simp,
      splitOnce_append_sep (key ++ [' ']) [] hmem]
    dsimp only
    rw [hkey', hval]
    rfl
  · next hv =>
    have hval : trim (' ' :: trimR v) = trim v := by
      rw [trim, show (' ' :: trimR v) = [' '] ++ trimR v from rfl, trimR_append, trimR_idem,
        if_neg hv, show [' '] ++ trimR v = ' ' :: trimR v from rfl,
        trimL_cons_ws _ (by decide)]
      rfl
    rw [if_neg (show ¬(key ++ ' ' :: '=' :: ' ' :: trimR v : Chars) = [] from by simp [hk]),
      if_neg (show ¬((key ++ ' ' :: '=' :: ' ' :: trimR v : Chars).head? = some '#') from by
        simp [hk, hsharp]),
      if_neg (show ¬((key ++ ' ' :: '=' :: ' ' :: trimR v : Chars).head? = some '[') from by
        simp [hk, hbr]),
      show (key ++ ' ' :: '=' :: ' ' :: trimR v : Chars) = (key ++ [' ']) ++ '=' :: ' ' :: trimR v
        from by simp,
      splitOnce_append_sep (key ++ [' ']) (' ' :: trimR v) hmem]
    dsimp only
    rw [hkey', hval]

-- ── rustLines over template-shaped strings ────────────────────────────────

theorem noNL_append {x y : Chars} (hx : ∀ c ∈ x, c ≠ '\n') (hy : ∀ c ∈ y, c ≠ '\n') :
    ∀ c ∈ x ++ y, c ≠ '\n' := by
  intro c hc
  rcases List.mem_append.mp hc with h | h
  · exact hx c h
  · exact hy c h

/-- Splitting off one newline-terminated line whose body has no newline. -/
theorem splitSep_line (xs ys : Chars) (h : ∀ c ∈ xs, c ≠ '\n') :
    splitSep '\n' (xs ++ '\n' :: ys) = xs :: splitSep '\n' ys := by
  rw [splitSep_append_noSep xs ('\n' :: ys) h, splitSep_cons_sep]
  simp [consHead]

-- ── natDigits / natDec lemmas ─────────────────────────────────────────────

theorem natDigitsF_ne_nil (f n : Nat) : natDigitsF f n ≠ [] := by
  cases f with
  | zero => simp [natDigitsF]
  | succ f => simp only [natDigitsF]; split <;> simp

theorem div10_lt_pow {f n : Nat} (hn : n < 10 ^ (f + 2)) : n / 10 < 10 ^ (f + 1) := by
  rw [Nat.div_lt_iff_lt_mul (by norm_num)]
  calc n < 10 ^ (f + 2) := hn
    _ = 10 ^ (f + 1) * 10 := by ring

theorem natDigitsF_lt10 (f : Nat) : ∀ n, n < 10 ^ (f + 1) → ∀ d ∈ natDigitsF f n, d < 10 := by
  induction f with
  | zero =>
    intro n hn d hd
    simp [natDigitsF] at hd
    simpa [hd] using hn
  | succ f ih =>
    intro n hn d hd
    simp only [natDigitsF] at hd
    split at hd
    · simp at hd; omega
    · rcases List.mem_append.mp hd with h | h
      · exact ih (n / 10) (div10_lt_pow hn) d h
      · simp at h; omega

theorem natDigitsF_val (f : Nat) : ∀ n, n < 10 ^ (f + 1) →
    (natDigitsF f n).foldl (fun acc d => acc * 10 + d) 0 = n := by
  induction f with
  | zero =>
    intro n hn
    simp [natDigitsF]
  | succ f ih =>
    intro n hn
    simp only [natDigitsF]
    split
    · simp
    · rw [List.foldl_append, ih (n / 10) (div10_lt_pow hn)]
      simp
      omega

theorem natDigitsF_small (f n : Nat) (h : n < 10) : natDigitsF f n = [n] := by
  cases f with
  | zero => rfl
  | succ f => simp [natDigitsF, h]

theorem natDigitsF_head_ne_zero (f : Nat) : ∀ n, n < 10 ^ (f + 1) → 1 ≤ n →
    (natDigitsF f n).head? ≠ some 0 := by
  induction f with
  | zero =>
    intro n hn h1
    simp [natDigitsF]
    omega
  | succ f ih =>
    intro n hn h1
    simp only [natDigitsF]
    split
    · simp; omega
    · next h =>
      obtain ⟨c, cs, hc⟩ := List.exists_cons_of_ne_nil (natDigitsF_ne_nil f (n / 10))
      have := ih (n / 10) (div10_lt_pow hn) (by omega)
      rw [hc] at this ⊢
      simpa using this

theorem natDigitsF_len_le (f : Nat) : ∀ n k, n < 10 ^ (f + 1) → 1 ≤ k → n < 10 ^ k →
    (natDigitsF f n).length ≤ k := by
  induction f with
  | zero => intro n k _ hk _; simp [natDigitsF]; omega
  | succ f ih =>
    intro n k hn hk hnk
    simp only [natDigitsF]
    split
    · simp; omega
    · next h =>
      have hk2 : 2 ≤ k := by
        by_contra hlt
        have : k = 1 := by omega
        subst this
        simp at hnk
        omega
      have hq : n / 10 < 10 ^ (k - 1) := by
        rw [Nat.div_lt_iff_lt_mul (by norm_num)]
        calc n < 10 ^ k := hnk
          _ = 10 ^ (k - 1) * 10 := by
            rw [← pow_succ]
            congr 1
            omega
      have := ih (n / 10) (k - 1) (div10_lt_pow hn) (by omega) hq
      simp
      omega

theorem lt_pow_self10 (n : Nat) : n < 10 ^ (n + 1) := by
  calc n < 10 ^ n := Nat.lt_pow_self (by norm_num) n
    _ ≤ 10 ^ (n + 1) := Nat.pow_le_pow_right (by norm_num) (by omega)

theorem natDigits_ne_nil (n : Nat) : natDigits n ≠ [] := natDigitsF_ne_nil n n

theorem natDigits_lt10 (n : Nat) : ∀ d ∈ natDigits n, d < 10 :=
  natDigitsF_lt10 n n (lt_pow_self10 n)

theorem natDigits_val (n : Nat) :
    (natDigits n).foldl (fun acc d => acc * 10 + d) 0 = n :=
  natDigitsF_val n n (lt_pow_self10 n)

theorem natDigits_small (n : Nat) (h : n < 10) : natDigits n = [n] :=
  natDigitsF_small n n h

theorem natDigits_head_ne_zero (n : Nat) (h : 1 ≤ n) : (natDigits n).head? ≠ some 0 :=
  natDigitsF_head_ne_zero n n (lt_pow_self10 n) h

theorem natDigits_len_le (n k : Nat) (hk : 1 ≤ k) (h : n < 10 ^ k) :
    (natDigits n).length ≤ k :=
  natDigitsF_len_le n n k (lt_pow_self10 n) hk h

-- ── Reading back rendered numbers ─────────────────────────────────────────

theorem toDigit_digitChar (d : Nat) (h : d < 10) : toDigit 10 (digitChar d) = some d := by
  interval_cases d <;> decide

theorem digitsIn_nondigit (radix : Nat) (c : Char) (r : Chars) (h : toDigit radix c = none) :
    digitsIn radix (c :: r) = ([], c :: r) := by
  simp [digitsIn, h]

theorem digitsIn_map_digitChar (ds : List Nat) (h : ∀ d ∈ ds, d < 10) (r : Chars)
    (hr : digitsIn 10 r = ([], r)) :
    digitsIn 10 (ds.map digitChar ++ r) = (ds, r) := by
  induction ds with
  | nil => simpa using hr
  | cons d tl ih =>
    rw [List.map_cons, List.cons_append]
    unfold digitsIn
    rw [toDigit_digitChar d (h d (by simp))]
    rw [ih (fun x hx => h x (by simp [hx]))]

theorem readNumber_natDec (md : Option Nat) (azp : Bool) (maxVal n : Nat) (r : Chars)
    (hr : digitsIn 10 r = ([], r))
    (hn : n ≤ maxVal)
    (hlen : match md with | some m => (natDigits n).length ≤ m | none => True) :
    readNumber 10 md azp maxVal (natDec n ++ r) = some (n, r) := by
  unfold readNumber
  rw [natDec, digitsIn_map_digitChar (natDigits n) (natDigits_lt10 n) r hr]
  rw [if_neg (by simpa using natDigits_ne_nil n)]
  rw [if_neg (by
    cases md with
    | none => simp
    | some m => simpa using hlen)]
  rw [if_neg (by
    rintro ⟨-, hlen1, hhead⟩
    by_cases hsmall : n < 10
    · rw [natDigits_small n hsmall] at hlen1
      simp at hlen1
    · exact natDigits_head_ne_zero n (by omega) hhead)]
  rw [natDigits_val n, if_pos hn]

theorem expectChar_cons_self (c : Char) (r : Chars) : expectChar c (c :: r) = some r := by
  simp [expectChar]

theorem readIpv4_ipv4Str (a b c d : Nat) (r : Chars)
    (ha : a ≤ 255) (hb : b ≤ 255) (hc : c ≤ 255) (hd : d ≤ 255)
    (hr : digitsIn 10 r = ([], r)) :
    readIpv4 (ipv4Str a b c d ++ r) = some ((a, b, c, d), r) := by
  have hlen : ∀ m, m ≤ 255 → (natDigits m).length ≤ 3 := fun m hm =>
    natDigits_len_le m 3 (by norm_num) (by omega)
  have hdot : ∀ (z : Chars), digitsIn 10 ('.' :: z) = ([], '.' :: z) :=
    fun z => digitsIn_nondigit 10 '.' z (by decide)
  unfold readIpv4
  rw [show ipv4Str a b c d ++ r
      = natDec a ++ '.' :: (natDec b ++ '.' :: (natDec c ++ '.' :: (natDec d ++ r)))
    from by simp [ipv4Str]]
  rw [readNumber_natDec (some 3) false 255 a _ (hdot _) ha (hlen a ha)]
  simp only [Option.some_bind, expectChar_cons_self]
  rw [readNumber_natDec (some 3) false 255 b _ (hdot _) hb (hlen b hb)]
  simp only [Option.some_bind, expectChar_cons_self]
  rw [readNumber_natDec (some 3) false 255 c _ (hdot _) hc (hlen c hc)]
  simp only [Option.some_bind, expectChar_cons_self]
  rw [readNumber_natDec (some 3) false 255 d _ hr hd (hlen d hd)]
  simp only [Option.some_bind]

theorem parseSocketAddr_ipv4 (a b c d p : Nat)
    (ha : a ≤ 255) (hb : b ≤ 255) (hc : c ≤ 255) (hd : d ≤ 255) (hp : p ≤ 65535) :
    parseSocketAddr (ipv4Str a b c d ++ ':' :: natDec p) = some (.v4 a b c d p) := by
  have hcolon : ∀ (z : Chars), digitsIn 10 (':' :: z) = ([], ':' :: z) :=
    fun z => digitsIn_nondigit 10 ':' z (by decide)
  unfold parseSocketAddr readSockV4 readPort
  rw [readIpv4_ipv4Str a b c d _ ha hb hc hd (hcolon _)]
  simp only [Option.some_bind, expectChar_cons_self]
  rw [show natDec p = natDec p ++ [] from by simp,
    readNumber_natDec none true 65535 p [] (by rfl) hp trivial]
  rfl

-- ── stripCR and whitespace-freeness ───────────────────────────────────────

theorem stripCR_self_of_last {l : Chars} (h : l.reverse.head? ≠ some '\r') : stripCR l = l := by
  unfold stripCR
  cases hr : l.reverse with
  | nil => rfl
  | cons c tl =>
    rw [hr] at h
    have hc : c ≠ '\r' := by simpa using h
    split
    · next heq => injection heq with h1 _; exact absurd h1 hc
    · rfl

theorem stripCR_concat_cr (y : Chars) : stripCR (y ++ ['\r']) = y := by
  simp [stripCR]

theorem stripCR_concat_ne (y : Chars) (c : Char) (hc : c ≠ '\r') :
    stripCR (y ++ [c]) = y ++ [c] := by
  apply stripCR_self_of_last
  simp [hc]

theorem stripCR_append {x v : Chars} (hv : v ≠ []) : stripCR (x ++ v) = x ++ stripCR v := by
  obtain ⟨c, tl, hr⟩ := List.exists_cons_of_ne_nil (show v.reverse ≠ [] by simpa using hv)
  have hv' : v = tl.reverse ++ [c] := by
    rw [show tl.reverse ++ [c] = (c :: tl).reverse from by simp, ← hr, List.reverse_reverse]
  subst hv'
  by_cases hc : c = '\r'
  · subst hc
    rw [show x ++ (tl.reverse ++ ['\r']) = (x ++ tl.reverse) ++ ['\r'] from by simp,
      stripCR_concat_cr, stripCR_concat_cr]
  · rw [show x ++ (tl.reverse ++ [c]) = (x ++ tl.reverse) ++ [c] from by simp,
      stripCR_concat_ne _ _ hc, stripCR_concat_ne _ _ hc]
    simp

theorem trim_stripCR (v : Chars) : trim (stripCR v) = trim v := by
  by_cases hv : v = []
  · subst hv; rfl
  · obtain ⟨c, tl, hr⟩ := List.exists_cons_of_ne_nil (show v.reverse ≠ [] by simpa using hv)
    have hv' : v = tl.reverse ++ [c] := by
      rw [show tl.reverse ++ [c] = (c :: tl).reverse from by simp, ← hr, List.reverse_reverse]
    subst hv'
    by_cases hc : c = '\r'
    · subst hc
      rw [stripCR_concat_cr, trim, trim, trimR_append,
        if_pos (show trimR ['\r'] = ([] : Chars) from by decide)]
    · rw [stripCR_concat_ne _ _ hc]

theorem dropWhile_noWs {m : Chars} (hm : ∀ c ∈ m, isWsChar c = false) :
    List.dropWhile isWsChar m = m := by
  cases m with
  | nil => rfl
  | cons c tl => rw [List.dropWhile_cons, if_neg (by simp [hm c (by simp)])]

theorem noWs_trimR {l : Chars} (h : ∀ c ∈ l, isWsChar c = false) : trimR l = l := by
  rw [trimR, dropWhile_noWs (fun c hc => h c (by simpa using hc)), List.reverse_reverse]

theorem noWs_trim {l : Chars} (h : ∀ c ∈ l, isWsChar c = false) : trim l = l := by
  rw [trim, noWs_trimR h, trimL, dropWhile_noWs h]

theorem digitChar_not_ws {d : Nat} (h : d < 10) : isWsChar (digitChar d) = false := by
  interval_cases d <;> decide

theorem natDec_no_ws (n : Nat) : ∀ c ∈ natDec n, isWsChar c = false := by
  intro c hc
  rw [natDec] at hc
  obtain ⟨d, hd, rfl⟩ := List.mem_map.mp hc
  exact digitChar_not_ws (natDigits_lt10 n d hd)

-- ── Template line splitting ───────────────────────────────────────────────

theorem splitSep_cons_ne {sep c : Char} (z : Chars) (hc : c ≠ sep) :
    splitSep sep (c :: z) = consHead [c] (splitSep sep z) := by
  rw [splitSep_cons, if_neg hc]

theorem splitSep_line2 (x1 x2 ys : Chars) (h1 : ∀ c ∈ x1, c ≠ '\n')
    (h2 : ∀ c ∈ x2, c ≠ '\n') :
    splitSep '\n' (x1 ++ (x2 ++ '\n' :: ys)) = (x1 ++ x2) :: splitSep '\n' ys := by
  rw [splitSep_append_noSep x1 _ h1, splitSep_line x2 ys h2]
  simp [consHead]

theorem splitSep_line_ep (x1 x2 x3 ys : Chars) (h1 : ∀ c ∈ x1, c ≠ '\n')
    (h2 : ∀ c ∈ x2, c ≠ '\n') (h3 : ∀ c ∈ x3, c ≠ '\n') :
    splitSep '\n' (x1 ++ (x2 ++ ':' :: (x3 ++ '\n' :: ys)))
      = (x1 ++ (x2 ++ ':' :: x3)) :: splitSep '\n' ys := by
  rw [splitSep_append_noSep x1 _ h1, splitSep_append_noSep x2 _ h2,
    splitSep_cons_ne _ (by decide), splitSep_line x3 ys h3]
  simp [consHead]

theorem rustLines_of_parts (cs : Chars) (ls : List Chars)
    (h : splitSep '\n' cs = ls ++ [[]]) : rustLines cs = ls.map stripCR := by
  rw [show rustLines cs = (if (splitSep '\n' cs).getLast? = some [] then
        (splitSep '\n' cs).dropLast else splitSep '\n' cs).map stripCR from rfl,
    h, List.getLast?_concat, if_pos rfl, List.dropLast_concat]

theorem stripCR_keyline (lit k : Chars) (hkR : trimR k = k) (hlit : stripCR lit = lit) :
    stripCR (lit ++ k) = lit ++ k := by
  by_cases hk : k = []
  · subst hk; simp [hlit]
  · rw [stripCR_append hk]
    obtain ⟨c, cs, hc, hw⟩ := trimR_last_not_ws hkR hk
    rw [show stripCR k = k from by
      apply stripCR_self_of_last
      rw [hc]
      intro heq
      injection heq with h1
      subst h1
      rw [show isWsChar '\r' = true from by decide] at hw
      cases hw]

theorem ipv4Str_no_ws (a b c d : Nat) : ∀ ch ∈ ipv4Str a b c d, isWsChar ch = false := by
  intro ch hch
  simp only [ipv4Str, List.append_assoc, List.cons_append, List.mem_append,
    List.mem_cons] at hch
  rcases hch with h | h | h | h | h | h | h <;>
    first
      | (subst h; decide)
      | (exact natDec_no_ws _ ch h)

theorem noNL_of_noWs {l : Chars} (h : ∀ c ∈ l, isWsChar c = false) : ∀ c ∈ l, c ≠ '\n' := by
  intro c hc heq
  subst heq
  have := h '\n' hc
  rw [show isWsChar '\n' = true from by decide] at this
  cases this

theorem rustLines_nil : rustLines ([] : Chars) = [] := rfl

theorem rustLines_cons_line (xs ys : Chars) (hx : ∀ c ∈ xs, c ≠ '\n')
    (hcr : stripCR xs = xs) :
    rustLines (xs ++ '\n' :: ys) = xs :: rustLines ys := by
  rw [show rustLines (xs ++ '\n' :: ys)
      = (if (splitSep '\n' (xs ++ '\n' :: ys)).getLast? = some [] then
          (splitSep '\n' (xs ++ '\n' :: ys)).dropLast
        else splitSep '\n' (xs ++ '\n' :: ys)).map stripCR from rfl,
    show rustLines ys
      = (if (splitSep '\n' ys).getLast? = some [] then
          (splitSep '\n' ys).dropLast
        else splitSep '\n' ys).map stripCR from rfl,
    splitSep_line xs ys hx]
  obtain ⟨p, P, hPP⟩ := List.exists_cons_of_ne_nil (splitSep_ne_nil '\n' ys)
  rw [hPP, List.getLast?_cons_cons]
  by_cases hlast : (p :: P).getLast? = some []
  · rw [if_pos hlast, if_pos hlast, List.dropLast_cons₂, List.map_cons, hcr]
  · rw [if_neg hlast, if_neg hlast, List.map_cons, hcr]

-- ── Claim C4 ──────────────────────────────────────────────────────────────

/-- C4 (amended): for key strings that contain no newline and no
leading/trailing whitespace (ASCII; the two `asciiOnly` hypotheses mark
the boundary of the ASCII `trim` model), and any IPv4 address given by
its four octets and any port, parsing the rendered client config succeeds
and recovers exactly the rendered fields: the keys verbatim, the endpoint
as the IPv4 socket address, local address `10.8.0.2` (CIDR stripped),
DNS `1.1.1.1`, allowed IPs exactly `["0.0.0.0/0"]`, keepalive `Some 25`. -/
theorem c4_theorem (pk pub : Chars) (o1 o2 o3 o4 port : Nat)
    (hpkN : ∀ c ∈ pk, c ≠ '\n') (hpkL : trimL pk = pk) (hpkR : trimR pk = pk)
    (_hpkA : asciiOnly pk)
    (hpubN : ∀ c ∈ pub, c ≠ '\n') (hpubL : trimL pub = pub) (hpubR : trimR pub = pub)
    (_hpubA : asciiOnly pub)
    (h1 : o1 ≤ 255) (h2 : o2 ≤ 255) (h3 : o3 ≤ 255) (h4 : o4 ≤ 255) (hport : port ≤ 65535) :
    ParsedClientConfig.parse (render_client_config pk pub (ipv4Str o1 o2 o3 o4) port) =
      .ok ⟨pk, "10.8.0.2".data, some "1.1.1.1".data, pub, .v4 o1 o2 o3 o4 port,
        ["0.0.0.0/0".data], some 25⟩ := by
  have hipWs := ipv4Str_no_ws o1 o2 o3 o4
  have hipN : ∀ c ∈ ipv4Str o1 o2 o3 o4, c ≠ '\n' := noNL_of_noWs hipWs
  have hptN : ∀ c ∈ natDec port, c ≠ '\n' := noNL_of_noWs (natDec_no_ws port)
  have hepWs : ∀ c ∈ ipv4Str o1 o2 o3 o4 ++ ':' :: natDec port, isWsChar c = false := by
    intro c hc
    rcases List.mem_append.mp hc with h | h
    · exact hipWs c h
    · rcases List.mem_cons.mp h with h | h
      · subst h; decide
      · exact natDec_no_ws port c h
  have htrimPk : trim pk = pk := by rw [trim, hpkR, hpkL]
  have htrimPub : trim pub = pub := by rw [trim, hpubR, hpubL]
  have htrimEp : trim (ipv4Str o1 o2 o3 o4 ++ ':' :: natDec port)
      = ipv4Str o1 o2 o3 o4 ++ ':' :: natDec port := noWs_trim hepWs
  have hkeyline : ∀ (lit k : Chars), (∀ c ∈ lit, c ≠ '\n') → (∀ c ∈ k, c ≠ '\n') →
      ∀ c ∈ lit ++ k, c ≠ '\n' := fun lit k hl hk => noNL_append hl hk
  have hlines : rustLines (render_client_config pk pub (ipv4Str o1 o2 o3 o4) port)
      = ["[Interface]".data, "PrivateKey = ".data ++ pk, "Address = 10.8.0.2/32".data,
         "DNS = 1.1.1.1".data, [], "[Peer]".data, "PublicKey = ".data ++ pub,
         "Endpoint = ".data ++ (ipv4Str o1 o2 o3 o4 ++ ':' :: natDec port),
         "AllowedIPs = 0.0.0.0/0".data, "PersistentKeepalive = 25".data] := by
    rw [show render_client_config pk pub (ipv4Str o1 o2 o3 o4) port
        = "[Interface]".data ++ '\n'
          :: (("PrivateKey = ".data ++ pk) ++ '\n'
          :: ("Address = 10.8.0.2/32".data ++ '\n'
          :: ("DNS = 1.1.1.1".data ++ '\n'
          :: (([] : Chars) ++ '\n'
          :: ("[Peer]".data ++ '\n'
          :: (("PublicKey = ".data ++ pub) ++ '\n'
          :: (("Endpoint = ".data ++ (ipv4Str o1 o2 o3 o4 ++ ':' :: natDec port)) ++ '\n'
          :: ("AllowedIPs = 0.0.0.0/0".data ++ '\n'
          :: ("PersistentKeepalive = 25".data ++ '\n'
          :: ([] : Chars))))))))))
      from by unfold render_client_config; simp]
    rw [rustLines_cons_line _ _ (by decide) (by decide),
      rustLines_cons_line _ _ (hkeyline _ _ (by decide) hpkN)
        (stripCR_keyline "PrivateKey = ".data pk hpkR (by decide)),
      rustLines_cons_line _ _ (by decide) (by decide),
      rustLines_cons_line _ _ (by decide) (by decide),
      rustLines_cons_line _ _ (by simp) (by decide),
      rustLines_cons_line _ _ (by decide) (by decide),
      rustLines_cons_line _ _ (hkeyline _ _ (by decide) hpubN)
        (stripCR_keyline "PublicKey = ".data pub hpubR (by decide)),
      rustLines_cons_line _ _
        (hkeyline _ _ (by decide) (noNL_append hipN (fun c hc => by
          rcases List.mem_cons.mp hc with h | h
          · subst h; decide
          · exact hptN c h)))
        (stripCR_keyline "Endpoint = ".data _ (noWs_trimR hepWs) (by decide)),
      rustLines_cons_line _ _ (by decide) (by decide),
      rustLines_cons_line _ _ (by decide) (by decide),
      rustLines_nil]
  have hscan : scan (render_client_config pk pub (ipv4Str o1 o2 o3 o4) port)
      = ⟨some pk, some "10.8.0.2".data, some "1.1.1.1".data, some pub,
         some (ipv4Str o1 o2 o3 o4 ++ ':' :: natDec port), ["0.0.0.0/0".data], some 25,
         "[Peer]".data⟩ := by
    rw [scan, hlines]
    simp only [scanLines]
    rw [show stepLine initScan "[Interface]".data
        = ⟨none, none, none, none, none, [], none, "[Interface]".data⟩ from by decide]
    rw [show ("PrivateKey = ".data ++ pk) = ("PrivateKey".data ++ ' ' :: '=' :: ' ' :: pk)
      from by
        rw [show "PrivateKey = ".data = "PrivateKey".data ++ ([' ', '=', ' '] : Chars) from by
          decide]
        simp]
    rw [stepLine_keyval _ "PrivateKey".data pk 'P' "rivateKey".data (by decide) (by decide)
      (by decide) (by decide) (by decide) (by decide), htrimPk]
    rw [show applyKV ⟨none, none, none, none, none, [], none, "[Interface]".data⟩
        "PrivateKey".data pk
        = ⟨some pk, none, none, none, none, [], none, "[Interface]".data⟩ from rfl]
    rw [show stepLine ⟨some pk, none, none, none, none, [], none, "[Interface]".data⟩
        "Address = 10.8.0.2/32".data
        = ⟨some pk, some "10.8.0.2".data, none, none, none, [], none, "[Interface]".data⟩
        from rfl]
    rw [show stepLine ⟨some pk, some "10.8.0.2".data, none, none, none, [], none,
          "[Interface]".data⟩ "DNS = 1.1.1.1".data
        = ⟨some pk, some "10.8.0.2".data, some "1.1.1.1".data, none, none, [], none,
           "[Interface]".data⟩ from rfl]
    rw [show stepLine ⟨some pk, some "10.8.0.2".data, some "1.1.1.1".data, none, none, [], none,
          "[Interface]".data⟩ ([] : Chars)
        = ⟨some pk, some "10.8.0.2".data, some "1.1.1.1".data, none, none, [], none,
           "[Interface]".data⟩ from rfl]
    rw [show stepLine ⟨some pk, some "10.8.0.2".data, some "1.1.1.1".data, none, none, [], none,
          "[Interface]".data⟩ "[Peer]".data
        = ⟨some pk, some "10.8.0.2".data, some "1.1.1.1".data, none, none, [], none,
           "[Peer]".data⟩ from rfl]
    rw [show ("PublicKey = ".data ++ pub) = ("PublicKey".data ++ ' ' :: '=' :: ' ' :: pub)
      from by
        rw [show "PublicKey = ".data = "PublicKey".data ++ ([' ', '=', ' '] : Chars) from by
          decide]
        simp]
    rw [stepLine_keyval _ "PublicKey".data pub 'P' "ublicKey".data (by decide) (by decide)
      (by decide) (by decide) (by decide) (by decide), htrimPub]
    rw [show applyKV ⟨some pk, some "10.8.0.2".data, some "1.1.1.1".data, none, none, [], none,
          "[Peer]".data⟩ "PublicKey".data pub
        = ⟨some pk, some "10.8.0.2".data, some "1.1.1.1".data, some pub, none, [], none,
           "[Peer]".data⟩ from rfl]
    rw [show ("Endpoint = ".data ++ (ipv4Str o1 o2 o3 o4 ++ ':' :: natDec port))
        = ("Endpoint".data ++ ' ' :: '=' :: ' ' :: (ipv4Str o1 o2 o3 o4 ++ ':' :: natDec port))
      from by
        rw [show "Endpoint = ".data = "Endpoint".data ++ ([' ', '=', ' '] : Chars) from by
          decide]
        simp]
    rw [stepLine_keyval _ "Endpoint".data _ 'E' "ndpoint".data (by decide) (by decide)
      (by decide) (by decide) (by decide) (by decide), htrimEp]
    rw [show applyKV ⟨some pk, some "10.8.0.2".data, some "1.1.1.1".data, some pub, none, [],
          none, "[Peer]".data⟩ "Endpoint".data (ipv4Str o1 o2 o3 o4 ++ ':' :: natDec port)
        = ⟨some pk, some "10.8.0.2".data, some "1.1.1.1".data, some pub,
           some (ipv4Str o1 o2 o3 o4 ++ ':' :: natDec port), [], none, "[Peer]".data⟩ from rfl]
    rw [show stepLine ⟨some pk, some "10.8.0.2".data, some "1.1.1.1".data, some pub,
          some (ipv4Str o1 o2 o3 o4 ++ ':' :: natDec port), [], none, "[Peer]".data⟩
          "AllowedIPs = 0.0.0.0/0".data
        = ⟨some pk, some "10.8.0.2".data, some "1.1.1.1".data, some pub,
           some (ipv4Str o1 o2 o3 o4 ++ ':' :: natDec port), ["0.0.0.0/0".data], none,
           "[Peer]".data⟩ from rfl]
    rw [show stepLine ⟨some pk, some "10.8.0.2".data, some "1.1.1.1".data, some pub,
          some (ipv4Str o1 o2 o3 o4 ++ ':' :: natDec port), ["0.0.0.0/0".data], none,
          "[Peer]".data⟩ "PersistentKeepalive = 25".data
        = ⟨some pk, some "10.8.0.2".data, some "1.1.1.1".data, some pub,
           some (ipv4Str o1 o2 o3 o4 ++ ':' :: natDec port), ["0.0.0.0/0".data], some 25,
           "[Peer]".data⟩ from rfl]
  have hmid : ParsedClientConfig.parse (render_client_config pk pub (ipv4Str o1 o2 o3 o4) port)
      = match parseSocketAddr (ipv4Str o1 o2 o3 o4 ++ ':' :: natDec port) with
        | none => .error (.WireGuard ("Invalid endpoint address: ".data
            ++ (ipv4Str o1 o2 o3 o4 ++ ':' :: natDec port)))
        | some ep => .ok ⟨pk, "10.8.0.2".data, some "1.1.1.1".data, pub, ep,
            ["0.0.0.0/0".data], some 25⟩ := by
    unfold ParsedClientConfig.parse
    rw [hscan]
  rw [hmid, parseSocketAddr_ipv4 o1 o2 o3 o4 port h1 h2 h3 h4 hport]

set_option maxRecDepth 100000 in
/-- C4 counterexample to the claim as stated, over *every* key string: a
private key containing a newline renders into a config that still parses,
but the recovered private key is not the rendered one. -/
theorem c4_counterexample :
    ParsedClientConfig.parse (render_client_config "k\nx".data "p".data (ipv4Str 1 2 3 4) 51820)
      = .ok ⟨"k".data, "10.8.0.2".data, some "1.1.1.1".data, "p".data, .v4 1 2 3 4 51820,
          ["0.0.0.0/0".data], some 25⟩
    ∧ ("k".data : Chars) ≠ "k\nx".data := by
  constructor
  · decide
  · decide

/-- Witness for `c4_theorem` at a concrete input (the spec's S5 endpoint
`203.0.113.10:51820`). -/
theorem c4_witness :
    ParsedClientConfig.parse
        (render_client_config "clientPriv".data "serverPub".data (ipv4Str 203 0 113 10) 51820)
      = .ok ⟨"clientPriv".data, "10.8.0.2".data, some "1.1.1.1".data, "serverPub".data,
          .v4 203 0 113 10 51820, ["0.0.0.0/0".data], some 25⟩ :=
  c4_theorem "clientPriv".data "serverPub".data 203 0 113 10 51820
    (by decide) (by decide) (by decide) (by decide)
    (by decide) (by decide) (by decide) (by decide)
    (by decide) (by decide) (by decide) (by decide) (by decide)



-- ── Claim C9 ──────────────────────────────────────────────────────────────

theorem rustLines_cons_line₀ (xs ys : Chars) (hx : ∀ c ∈ xs, c ≠ '\n') :
    rustLines (xs ++ '\n' :: ys) = stripCR xs :: rustLines ys := by
  rw [show rustLines (xs ++ '\n' :: ys)
      = (if (splitSep '\n' (xs ++ '\n' :: ys)).getLast? = some [] then
          (splitSep '\n' (xs ++ '\n' :: ys)).dropLast
        else splitSep '\n' (xs ++ '\n' :: ys)).map stripCR from rfl,
    show rustLines ys
      = (if (splitSep '\n' ys).getLast? = some [] then
          (splitSep '\n' ys).dropLast
        else splitSep '\n' ys).map stripCR from rfl,
    splitSep_line xs ys hx]
  obtain ⟨p, P, hPP⟩ := List.exists_cons_of_ne_nil (splitSep_ne_nil '\n' ys)
  rw [hPP, List.getLast?_cons_cons]
  by_cases hlast : (p :: P).getLast? = some []
  · rw [if_pos hlast, if_pos hlast, List.dropLast_cons₂, List.map_cons]
  · rw [if_neg hlast, if_neg hlast, List.map_cons]

/-- C9: in a config whose `[Peer]` section carries
`PersistentKeepalive = v` (for any newline-free value `v`; `asciiOnly`
marks the ASCII boundary of the `trim` model), parsing succeeds and the
parsed keepalive is exactly `u16::from_str` of the trimmed value — `Some n`
when the value parses as a `u16`, `None` otherwise, never a parse error. -/
theorem c9_theorem (v : Chars) (hv : ∀ c ∈ v, c ≠ '\n') (_hva : asciiOnly v) :
    ParsedClientConfig.parse (kaConfig v)
      = .ok ⟨"k".data, "10.8.0.2".data, none, "p".data, .v4 1 2 3 4 51820, [],
          parseU16 (trim v)⟩ := by
  have hlines : rustLines (kaConfig v)
      = ["[Interface]".data, "PrivateKey = k".data, "Address = 10.8.0.2/32".data, [],
         "[Peer]".data, "PublicKey = p".data, "Endpoint = 1.2.3.4:51820".data,
         "PersistentKeepalive = ".data ++ stripCR v] := by
    rw [show kaConfig v
        = "[Interface]".data ++ '\n'
          :: ("PrivateKey = k".data ++ '\n'
          :: ("Address = 10.8.0.2/32".data ++ '\n'
          :: (([] : Chars) ++ '\n'
          :: ("[Peer]".data ++ '\n'
          :: ("PublicKey = p".data ++ '\n'
          :: ("Endpoint = 1.2.3.4:51820".data ++ '\n'
          :: (("PersistentKeepalive = ".data ++ v) ++ '\n'
          :: ([] : Chars))))))))
      from by unfold kaConfig; simp]
    rw [rustLines_cons_line _ _ (by decide) (by decide),
      rustLines_cons_line _ _ (by decide) (by decide),
      rustLines_cons_line _ _ (by decide) (by decide),
      rustLines_cons_line _ _ (by simp) (by decide),
      rustLines_cons_line _ _ (by decide) (by decide),
      rustLines_cons_line _ _ (by decide) (by decide),
      rustLines_cons_line _ _ (by decide) (by decide),
      rustLines_cons_line₀ _ _ (noNL_append (by decide) hv),
      rustLines_nil]
    by_cases hveq : v = []
    · subst hveq
      rw [show stripCR ("PersistentKeepalive = ".data ++ ([] : Chars))
          = "PersistentKeepalive = ".data ++ stripCR ([] : Chars) from by
        simp [show stripCR "PersistentKeepalive = ".data = "PersistentKeepalive = ".data
          from by decide, show stripCR ([] : Chars) = [] from rfl]]
    · rw [stripCR_append hveq]
  have hscan : scan (kaConfig v)
      = ⟨some "k".data, some "10.8.0.2".data, none, some "p".data,
         some "1.2.3.4:51820".data, [], parseU16 (trim v), "[Peer]".data⟩ := by
    rw [scan, hlines]
    simp only [scanLines]
    rw [show stepLine initScan "[Interface]".data
        = ⟨none, none, none, none, none, [], none, "[Interface]".data⟩ from by decide]
    rw [show stepLine ⟨none, none, none, none, none, [], none, "[Interface]".data⟩
          "PrivateKey = k".data
        = ⟨some "k".data, none, none, none, none, [], none, "[Interface]".data⟩ from by decide]
    rw [show stepLine ⟨some "k".data, none, none, none, none, [], none, "[Interface]".data⟩
          "Address = 10.8.0.2/32".data
        = ⟨some "k".data, some "10.8.0.2".data, none, none, none, [], none, "[Interface]".data⟩
        from by decide]
    rw [show stepLine ⟨some "k".data, some "10.8.0.2".data, none, none, none, [], none,
          "[Interface]".data⟩ ([] : Chars)
        = ⟨some "k".data, some "10.8.0.2".data, none, none, none, [], none, "[Interface]".data⟩
        from by decide]
    rw [show stepLine ⟨some "k".data, some "10.8.0.2".data, none, none, none, [], none,
          "[Interface]".data⟩ "[Peer]".data
        = ⟨some "k".data, some "10.8.0.2".data, none, none, none, [], none, "[Peer]".data⟩
        from by decide]
    rw [show stepLine ⟨some "k".data, some "10.8.0.2".data, none, none, none, [], none,
          "[Peer]".data⟩ "PublicKey = p".data
        = ⟨some "k".data, some "10.8.0.2".data, none, some "p".data, none, [], none,
           "[Peer]".data⟩ from by decide]
    rw [show stepLine ⟨some "k".data, some "10.8.0.2".data, none, some "p".data, none, [], none,
          "[Peer]".data⟩ "Endpoint = 1.2.3.4:51820".data
        = ⟨some "k".data, some "10.8.0.2".data, none, some "p".data,
           some "1.2.3.4:51820".data, [], none, "[Peer]".data⟩ from by decide]
    rw [show ("PersistentKeepalive = ".data ++ stripCR v)
        = ("PersistentKeepalive".data ++ ' ' :: '=' :: ' ' :: stripCR v) from by
      rw [show "PersistentKeepalive = ".data
          = "PersistentKeepalive".data ++ ([' ', '=', ' '] : Chars) from by decide]
      simp]
    rw [stepLine_keyval _ "PersistentKeepalive".data (stripCR v) 'P' "ersistentKeepalive".data
      (by decide) (by decide) (by decide) (by decide) (by decide) (by decide), trim_stripCR]
    rfl
  have hmid : ParsedClientConfig.parse (kaConfig v)
      = match parseSocketAddr "1.2.3.4:51820".data with
        | none => .error (.WireGuard ("Invalid endpoint address: ".data
            ++ "1.2.3.4:51820".data))
        | some ep => .ok ⟨"k".data, "10.8.0.2".data, none, "p".data, ep, [],
            parseU16 (trim v)⟩ := by
    unfold ParsedClientConfig.parse
    rw [hscan]
  rw [hmid, show parseSocketAddr "1.2.3.4:51820".data = some (.v4 1 2 3 4 51820) from by decide]

/-- Witness for `c9_theorem` at the concrete value `25` (and, via
`parseU16`, keepalive `Some 25`). -/
theorem c9_witness :
    ParsedClientConfig.parse (kaConfig "25".data)
      = .ok ⟨"k".data, "10.8.0.2".data, none, "p".data, .v4 1 2 3 4 51820, [], some 25⟩ := by
  have h := c9_theorem "25".data (by decide) (by decide)
  rw [h]
  rfl



-- ── Claims C6 and C7 ──────────────────────────────────────────────────────

set_option maxRecDepth 100000 in
/-- C6 counterexample to the claim as stated: a config whose `Endpoint`
is the IPv6 socket address `[2001:db8::1]:51820` parses successfully
(Rust's `SocketAddr::from_str` accepts IPv6), with the IPv6 endpoint in
the parsed record. -/
theorem c6_counterexample : ParsedClientConfig.parse conf6 = .ok conf6Parsed := by
  decide

/-- C6 (amended): a successful parse guarantees only that the endpoint is
a socket address — IPv4 or IPv6; an IPv6 endpoint parses successfully. -/
theorem c6_theorem :
    (∀ (conf : Chars) (c : ParsedClientConfig), ParsedClientConfig.parse conf = .ok c →
      (∃ a b c4 d p, c.endpoint = .v4 a b c4 d p) ∨ (∃ segs sc p, c.endpoint = .v6 segs sc p))
    ∧ (ParsedClientConfig.parse conf6).isOk = true := by
  constructor
  · intro conf c _
    cases he : c.endpoint with
    | v4 a b c4 d p => exact .inl ⟨a, b, c4, d, p, rfl⟩
    | v6 segs sc p => exact .inr ⟨segs, sc, p, rfl⟩
  · rw [c6_counterexample]
    rfl

/-- C7 (amended): a config missing a required assignment fails to parse,
with the message naming the *first* missing key in the order PrivateKey,
Address, PublicKey, Endpoint; and with all four present, an endpoint value
that is not a socket address fails with the invalid-endpoint message.
Each missing-key message contains that key's name. -/
theorem c7_theorem (conf : Chars) :
    ((scan conf).private_key = none →
      ParsedClientConfig.parse conf
        = .error (.WireGuard "Config missing [Interface] PrivateKey".data)) ∧
    ((scan conf).private_key ≠ none → (scan conf).address = none →
      ParsedClientConfig.parse conf
        = .error (.WireGuard "Config missing [Interface] Address".data)) ∧
    ((scan conf).private_key ≠ none → (scan conf).address ≠ none →
      (scan conf).server_public_key = none →
      ParsedClientConfig.parse conf
        = .error (.WireGuard "Config missing [Peer] PublicKey".data)) ∧
    ((scan conf).private_key ≠ none → (scan conf).address ≠ none →
      (scan conf).server_public_key ≠ none → (scan conf).endpoint_str = none →
      ParsedClientConfig.parse conf
        = .error (.WireGuard "Config missing [Peer] Endpoint".data)) ∧
    (∀ raw, (scan conf).private_key ≠ none → (scan conf).address ≠ none →
      (scan conf).server_public_key ≠ none → (scan conf).endpoint_str = some raw →
      parseSocketAddr raw = none →
      ParsedClientConfig.parse conf
        = .error (.WireGuard ("Invalid endpoint address: ".data ++ raw))) ∧
    (containsSub "Config missing [Interface] PrivateKey".data "PrivateKey".data = true ∧
     containsSub "Config missing [Interface] Address".data "Address".data = true ∧
     containsSub "Config missing [Peer] PublicKey".data "PublicKey".data = true ∧
     containsSub "Config missing [Peer] Endpoint".data "Endpoint".data = true) := by
  refine ⟨?_, ?_, ?_, ?_, ?_, by decide⟩
  · intro h1
    simp only [ParsedClientConfig.parse]
    rw [h1]
  · intro h1 h2
    obtain ⟨pk, hpk⟩ := Option.ne_none_iff_exists'.mp h1
    simp only [ParsedClientConfig.parse]
    rw [hpk, h2]
  · intro h1 h2 h3
    obtain ⟨pk, hpk⟩ := Option.ne_none_iff_exists'.mp h1
    obtain ⟨ad, had⟩ := Option.ne_none_iff_exists'.mp h2
    simp only [ParsedClientConfig.parse]
    rw [hpk, had, h3]
  · intro h1 h2 h3 h4
    obtain ⟨pk, hpk⟩ := Option.ne_none_iff_exists'.mp h1
    obtain ⟨ad, had⟩ := Option.ne_none_iff_exists'.mp h2
    obtain ⟨pb, hpb⟩ := Option.ne_none_iff_exists'.mp h3
    simp only [ParsedClientConfig.parse]
    rw [hpk, had, hpb, h4]
  · intro raw h1 h2 h3 h4 h5
    obtain ⟨pk, hpk⟩ := Option.ne_none_iff_exists'.mp h1
    obtain ⟨ad, had⟩ := Option.ne_none_iff_exists'.mp h2
    obtain ⟨pb, hpb⟩ := Option.ne_none_iff_exists'.mp h3
    simp only [ParsedClientConfig.parse]
    rw [hpk, had, hpb, h4]
    dsimp only
    rw [h5]

set_option maxRecDepth 100000 in
/-- Witness for `c6_theorem` (its first conjunct has a hypothesis):
applied at `conf6` and its parse. -/
theorem c6_witness :
    (∃ a b c4 d p, conf6Parsed.endpoint = .v4 a b c4 d p) ∨
      (∃ segs sc p, conf6Parsed.endpoint = .v6 segs sc p) :=
  c6_theorem.1 conf6 conf6Parsed (by decide)

/-- C7 counterexample to the claim as stated: in the empty config the
`Address` assignment is absent, yet the parse error message (which names
`PrivateKey`, the first missing key) does not contain `Address`. -/
theorem c7_counterexample :
    (scan ([] : Chars)).address = none ∧
    ParsedClientConfig.parse ([] : Chars)
      = .error (.WireGuard "Config missing [Interface] PrivateKey".data) ∧
    containsSub "Config missing [Interface] PrivateKey".data "Address".data = false := by
  refine ⟨by decide, by decide, by decide⟩

set_option maxRecDepth 100000 in
/-- Witness for `c7_theorem` at a concrete input: a config missing only
`Address`. -/
theorem c7_witness :
    ParsedClientConfig.parse confNoAddr
      = .error (.WireGuard "Config missing [Interface] Address".data) :=
  (c7_theorem confNoAddr).2.1 (by decide) (by decide)



-- ── Claim C5 ──────────────────────────────────────────────────────────────

theorem b64Val_b64Char : ∀ n, n < 64 → b64Val (b64Char n) = some n := by decide

theorem b64Char_ne_pad : ∀ n, n < 64 → b64Char n ≠ '=' := by decide

theorem b64_roundtrip : ∀ bs : List Nat, (∀ x ∈ bs, x < 256) →
    b64decode (b64encode bs) = some bs := by
  intro bs
  induction bs using b64encode.induct with
  | case1 => intro _; rfl
  | case2 a =>
    intro h
    have ha : a < 256 := h a (by simp)
    simp only [b64encode, b64decode]
    rw [b64Val_b64Char _ (by omega), b64Val_b64Char _ (by omega)]
    simp only [Option.some_bind, if_true, true_and]
    rw [if_pos (by omega : a % 4 * 16 % 16 = 0)]
    simp only [Option.some.injEq, List.cons.injEq, and_true]
    omega
  | case3 a b =>
    intro h
    have ha : a < 256 := h a (by simp)
    have hb : b < 256 := h b (by simp)
    simp only [b64encode, b64decode]
    rw [b64Val_b64Char _ (by omega), b64Val_b64Char _ (by omega)]
    simp only [Option.some_bind]
    rw [if_neg (b64Char_ne_pad _ (by omega)), b64Val_b64Char _ (by omega)]
    simp only [Option.some_bind, if_true, true_and]
    rw [if_pos (by omega : b % 16 * 4 % 4 = 0)]
    simp only [Option.some.injEq, List.cons.injEq, and_true]
    constructor <;> omega
  | case4 a b c rest ih =>
    intro h
    have ha : a < 256 := h a (by simp)
    have hb : b < 256 := h b (by simp)
    have hc : c < 256 := h c (by simp)
    have IH := ih (fun x hx => h x (by simp [hx]))
    simp only [b64encode, b64decode]
    rw [b64Val_b64Char _ (by omega), b64Val_b64Char _ (by omega)]
    simp only [Option.some_bind]
    rw [if_neg (b64Char_ne_pad _ (by omega)), b64Val_b64Char _ (by omega)]
    simp only [Option.some_bind]
    rw [if_neg (b64Char_ne_pad _ (by omega)), b64Val_b64Char _ (by omega)]
    simp only [Option.some_bind]
    rw [IH]
    simp only [Option.map_some', Option.some.injEq, List.cons.injEq, and_true, true_and]
    omega

/-- C5: `decode_key` inverts standard base64 encoding of any 32-byte key,
and fails with a `ConfigError` on any input that is not valid (canonical,
padded) base64 or whose decoding is not exactly 32 bytes. -/
theorem c5_theorem :
    (∀ bs : List Nat, (∀ x ∈ bs, x < 256) → bs.length = 32 →
      decode_key (b64encode bs) = .ok bs) ∧
    (∀ s, b64decode s = none →
      decode_key s = .error (.WireGuard "Failed to decode WireGuard key: ".data)) ∧
    (∀ s bs, b64decode s = some bs → bs.length ≠ 32 →
      decode_key s = .error (.WireGuard "WireGuard key must be exactly 32 bytes".data)) := by
  refine ⟨?_, ?_, ?_⟩
  · intro bs hb hlen
    unfold decode_key
    rw [b64_roundtrip bs hb]
    simp [hlen]
  · intro s h
    unfold decode_key
    rw [h]
  · intro s bs h hlen
    unfold decode_key
    rw [h]
    simp [hlen]

/-- Witness for `c5_theorem` at a concrete 32-byte key. -/
theorem c5_witness :
    decode_key (b64encode (List.replicate 32 0)) = .ok (List.replicate 32 0) :=
  c5_theorem.1 (List.replicate 32 0) (by decide) (by decide)



-- ── Claim C10 ─────────────────────────────────────────────────────────────

theorem applyKV_sect (st : ScanState) (key val : Chars) :
    (applyKV st key val).sect = st.sect := by
  unfold applyKV
  split_ifs <;> rfl

theorem applyKV_privkey (st : ScanState) (key val : Chars) :
    (applyKV st key val).private_key =
      if st.sect = "[Interface]".data ∧ key = "PrivateKey".data then some val
      else st.private_key := by
  unfold applyKV
  split_ifs <;> simp_all

theorem applyKV_address (st : ScanState) (key val : Chars) :
    (applyKV st key val).address =
      if st.sect = "[Interface]".data ∧ key = "Address".data then
        some (val.takeWhile (fun c => c ≠ '/'))
      else st.address := by
  unfold applyKV
  split_ifs <;> simp_all

theorem applyKV_dns (st : ScanState) (key val : Chars) :
    (applyKV st key val).dns =
      if st.sect = "[Interface]".data ∧ key = "DNS".data then some val
      else st.dns := by
  unfold applyKV
  split_ifs <;> simp_all

theorem applyKV_pub (st : ScanState) (key val : Chars) :
    (applyKV st key val).server_public_key =
      if st.sect = "[Peer]".data ∧ key = "PublicKey".data then some val
      else st.server_public_key := by
  unfold applyKV
  split_ifs <;> simp_all

theorem applyKV_ep (st : ScanState) (key val : Chars) :
    (applyKV st key val).endpoint_str =
      if st.sect = "[Peer]".data ∧ key = "Endpoint".data then some val
      else st.endpoint_str := by
  unfold applyKV
  split_ifs <;> simp_all

theorem applyKV_ka (st : ScanState) (key val : Chars) :
    (applyKV st key val).keepalive =
      if st.sect = "[Peer]".data ∧ key = "PersistentKeepalive".data then parseU16 val
      else st.keepalive := by
  unfold applyKV
  split_ifs <;> simp_all

theorem applyKV_allowed (st : ScanState) (key val : Chars) :
    (applyKV st key val).allowed_ips =
      if st.sect = "[Peer]".data ∧ key = "AllowedIPs".data then
        st.allowed_ips ++ (splitSep ',' val).map trim
      else st.allowed_ips := by
  unfold applyKV
  split_ifs <;> simp_all

theorem getLast?_cons_or {α : Type} (x : α) (xs : List α) :
    ∀ (y : Option α), ((x :: xs).getLast?).or y = (xs.getLast?).or (some x) := by
  induction xs generalizing x with
  | nil => intro y; simp [List.getLast?]
  | cons z zs ih =>
    intro y
    rw [List.getLast?_cons_cons, ih z, ih z]

theorem scanLines_privkey (ls : List Chars) : ∀ (st : ScanState),
    (scanLines st ls).private_key =
      ((assignsFrom st.sect "[Interface]".data "PrivateKey".data ls).getLast?).or
        st.private_key := by
  induction ls with
  | nil => intro st; simp [scanLines, assignsFrom]
  | cons l tl ih =>
    intro st
    simp only [scanLines]
    rw [ih (stepLine st l)]
    simp only [stepLine, assignsFrom]
    split_ifs with h1 h2 h3
    · rfl
    · rfl
    · rfl
    · cases hkv : splitOnce '=' (trim l) with
      | none => rfl
      | some kv =>
        simp only
        rw [applyKV_sect, applyKV_privkey]
        by_cases hcond : st.sect = "[Interface]".data ∧ trim kv.1 = "PrivateKey".data
        · rw [if_pos hcond, if_pos hcond, getLast?_cons_or]
        · rw [if_neg hcond, if_neg hcond]

theorem getLast?_cons_map_or {α β : Type} (f : α → β) (x : α) (xs : List α) :
    ∀ (y : Option β), (((x :: xs).getLast?).map f).or y = ((xs.getLast?).map f).or (some (f x)) := by
  induction xs generalizing x with
  | nil => intro y; simp [List.getLast?]
  | cons z zs ih =>
    intro y
    rw [List.getLast?_cons_cons, ih z, ih z]

theorem getLast?_cons_elim {α β : Type} (g : α → β) (x : α) (xs : List α) :
    ∀ (b : β), ((x :: xs).getLast?).elim b g = (xs.getLast?).elim (g x) g := by
  induction xs generalizing x with
  | nil => intro b; simp [List.getLast?]
  | cons z zs ih =>
    intro b
    rw [List.getLast?_cons_cons, ih z, ih z]

theorem scanLines_address (ls : List Chars) : ∀ (st : ScanState),
    (scanLines st ls).address =
      (((assignsFrom st.sect "[Interface]".data "Address".data ls).getLast?).map
        (fun v => v.takeWhile (fun c => c ≠ '/'))).or st.address := by
  induction ls with
  | nil => intro st; simp [scanLines, assignsFrom]
  | cons l tl ih =>
    intro st
    simp only [scanLines]
    rw [ih (stepLine st l)]
    simp only [stepLine, assignsFrom]
    split_ifs with h1 h2 h3
    · rfl
    · rfl
    · rfl
    · cases hkv : splitOnce '=' (trim l) with
      | none => rfl
      | some kv =>
        simp only
        rw [applyKV_sect, applyKV_address]
        by_cases hcond : st.sect = "[Interface]".data ∧ trim kv.1 = "Address".data
        · rw [if_pos hcond, if_pos hcond, getLast?_cons_map_or]
        · rw [if_neg hcond, if_neg hcond]

theorem scanLines_dns (ls : List Chars) : ∀ (st : ScanState),
    (scanLines st ls).dns =
      ((assignsFrom st.sect "[Interface]".data "DNS".data ls).getLast?).or st.dns := by
  induction ls with
  | nil => intro st; simp [scanLines, assignsFrom]
  | cons l tl ih =>
    intro st
    simp only [scanLines]
    rw [ih (stepLine st l)]
    simp only [stepLine, assignsFrom]
    split_ifs with h1 h2 h3
    · rfl
    · rfl
    · rfl
    · cases hkv : splitOnce '=' (trim l) with
      | none => rfl
      | some kv =>
        simp only
        rw [applyKV_sect, applyKV_dns]
        by_cases hcond : st.sect = "[Interface]".data ∧ trim kv.1 = "DNS".data
        · rw [if_pos hcond, if_pos hcond, getLast?_cons_or]
        · rw [if_neg hcond, if_neg hcond]

theorem scanLines_pub (ls : List Chars) : ∀ (st : ScanState),
    (scanLines st ls).server_public_key =
      ((assignsFrom st.sect "[Peer]".data "PublicKey".data ls).getLast?).or
        st.server_public_key := by
  induction ls with
  | nil => intro st; simp [scanLines, assignsFrom]
  | cons l tl ih =>
    intro st
    simp only [scanLines]
    rw [ih (stepLine st l)]
    simp only [stepLine, assignsFrom]
    split_ifs with h1 h2 h3
    · rfl
    · rfl
    · rfl
    · cases hkv : splitOnce '=' (trim l) with
      | none => rfl
      | some kv =>
        simp only
        rw [applyKV_sect, applyKV_pub]
        by_cases hcond : st.sect = "[Peer]".data ∧ trim kv.1 = "PublicKey".data
        · rw [if_pos hcond, if_pos hcond, getLast?_cons_or]
        · rw [if_neg hcond, if_neg hcond]

theorem scanLines_ep (ls : List Chars) : ∀ (st : ScanState),
    (scanLines st ls).endpoint_str =
      ((assignsFrom st.sect "[Peer]".data "Endpoint".data ls).getLast?).or
        st.endpoint_str := by
  induction ls with
  | nil => intro st; simp [scanLines, assignsFrom]
  | cons l tl ih =>
    intro st
    simp only [scanLines]
    rw [ih (stepLine st l)]
    simp only [stepLine, assignsFrom]
    split_ifs with h1 h2 h3
    · rfl
    · rfl
    · rfl
    · cases hkv : splitOnce '=' (trim l) with
      | none => rfl
      | some kv =>
        simp only
        rw [applyKV_sect, applyKV_ep]
        by_cases hcond : st.sect = "[Peer]".data ∧ trim kv.1 = "Endpoint".data
        · rw [if_pos hcond, if_pos hcond, getLast?_cons_or]
        · rw [if_neg hcond, if_neg hcond]

theorem scanLines_ka (ls : List Chars) : ∀ (st : ScanState),
    (scanLines st ls).keepalive =
      ((assignsFrom st.sect "[Peer]".data "PersistentKeepalive".data ls).getLast?).elim
        st.keepalive parseU16 := by
  induction ls with
  | nil => intro st; simp [scanLines, assignsFrom]
  | cons l tl ih =>
    intro st
    simp only [scanLines]
    rw [ih (stepLine st l)]
    simp only [stepLine, assignsFrom]
    split_ifs with h1 h2 h3
    · rfl
    · rfl
    · rfl
    · cases hkv : splitOnce '=' (trim l) with
      | none => rfl
      | some kv =>
        simp only
        rw [applyKV_sect, applyKV_ka]
        by_cases hcond : st.sect = "[Peer]".data ∧ trim kv.1 = "PersistentKeepalive".data
        · rw [if_pos hcond, if_pos hcond, getLast?_cons_elim]
        · rw [if_neg hcond, if_neg hcond]

theorem scanLines_allowed (ls : List Chars) : ∀ (st : ScanState),
    (scanLines st ls).allowed_ips =
      st.allowed_ips ++
        ((assignsFrom st.sect "[Peer]".data "AllowedIPs".data ls).map
          (fun v => (splitSep ',' v).map trim)).flatten := by
  induction ls with
  | nil => intro st; simp [scanLines, assignsFrom]
  | cons l tl ih =>
    intro st
    simp only [scanLines]
    rw [ih (stepLine st l)]
    simp only [stepLine, assignsFrom]
    split_ifs with h1 h2 h3
    · rfl
    · rfl
    · rfl
    · cases hkv : splitOnce '=' (trim l) with
      | none => rfl
      | some kv =>
        simp only
        rw [applyKV_sect, applyKV_allowed]
        by_cases hcond : st.sect = "[Peer]".data ∧ trim kv.1 = "AllowedIPs".data
        · rw [if_pos hcond, if_pos hcond]
          simp [List.append_assoc]
        · rw [if_neg hcond, if_neg hcond]

/-- C10: for every config text, each scalar field of the scan (PrivateKey,
Address, DNS in `[Interface]`; PublicKey, Endpoint, PersistentKeepalive in
`[Peer]`) is determined by the *last* assignment to that key in text
order (`assigns` lists them in text order; `getLast?` takes the last),
with the field transforms applied (CIDR strip for Address, `u16` parse
for PersistentKeepalive), while the AllowedIPs lists of all assignments
accumulate in line order; and a successful parse copies these scan
fields into the parsed config. -/
theorem c10_theorem (conf : Chars) :
    ((scan conf).private_key = (assigns "[Interface]".data "PrivateKey".data conf).getLast? ∧
     (scan conf).address = ((assigns "[Interface]".data "Address".data conf).getLast?).map
        (fun v => v.takeWhile (fun c => c ≠ '/')) ∧
     (scan conf).dns = (assigns "[Interface]".data "DNS".data conf).getLast? ∧
     (scan conf).server_public_key = (assigns "[Peer]".data "PublicKey".data conf).getLast? ∧
     (scan conf).endpoint_str = (assigns "[Peer]".data "Endpoint".data conf).getLast? ∧
     (scan conf).keepalive
       = ((assigns "[Peer]".data "PersistentKeepalive".data conf).getLast?).bind parseU16 ∧
     (scan conf).allowed_ips = ((assigns "[Peer]".data "AllowedIPs".data conf).map
        (fun v => (splitSep ',' v).map trim)).flatten) ∧
    (∀ c, ParsedClientConfig.parse conf = .ok c →
      c.private_key_b64 = (scan conf).private_key.getD [] ∧
      c.vpn_address = (scan conf).address.getD [] ∧
      c.dns = (scan conf).dns ∧
      c.server_public_key_b64 = (scan conf).server_public_key.getD [] ∧
      c.allowed_ips = (scan conf).allowed_ips ∧
      c.persistent_keepalive = (scan conf).keepalive) := by
  constructor
  · refine ⟨?_, ?_, ?_, ?_, ?_, ?_, ?_⟩
    · rw [scan, scanLines_privkey, assigns, show initScan.sect = ([] : Chars) from rfl,
        show initScan.private_key = none from rfl, Option.or_none]
    · rw [scan, scanLines_address, assigns, show initScan.sect = ([] : Chars) from rfl,
        show initScan.address = none from rfl, Option.or_none]
    · rw [scan, scanLines_dns, assigns, show initScan.sect = ([] : Chars) from rfl,
        show initScan.dns = none from rfl, Option.or_none]
    · rw [scan, scanLines_pub, assigns, show initScan.sect = ([] : Chars) from rfl,
        show initScan.server_public_key = none from rfl, Option.or_none]
    · rw [scan, scanLines_ep, assigns, show initScan.sect = ([] : Chars) from rfl,
        show initScan.endpoint_str = none from rfl, Option.or_none]
    · rw [scan, scanLines_ka, assigns, show initScan.sect = ([] : Chars) from rfl,
        show initScan.keepalive = none from rfl]
      cases (assignsFrom [] "[Peer]".data "PersistentKeepalive".data (rustLines conf)).getLast?
        <;> rfl
    · rw [scan, scanLines_allowed, assigns, show initScan.sect = ([] : Chars) from rfl,
        show initScan.allowed_ips = ([] : List Chars) from rfl, List.nil_append]
  · intro c h
    simp only [ParsedClientConfig.parse] at h
    cases hpk : (scan conf).private_key with
    | none => rw [hpk] at h; cases h
    | some pk =>
    rw [hpk] at h
    cases had : (scan conf).address with
    | none => rw [had] at h; cases h
    | some ad =>
    rw [had] at h
    cases hpb : (scan conf).server_public_key with
    | none => rw [hpb] at h; cases h
    | some pb =>
    rw [hpb] at h
    cases hep : (scan conf).endpoint_str with
    | none => rw [hep] at h; cases h
    | some ep =>
    rw [hep] at h
    dsimp only at h
    cases hsa : parseSocketAddr ep with
    | none => rw [hsa] at h; cases h
    | some sa =>
    rw [hsa] at h
    injection h with h
    subst h
    exact ⟨rfl, rfl, rfl, rfl, rfl, rfl⟩

set_option maxRecDepth 100000 in
/-- Witness for `c10_theorem` (its second conjunct has a hypothesis):
applied at a config with duplicate scalar assignments and two
`AllowedIPs` lines. -/
theorem c10_witness :
    confDupParsed.private_key_b64 = (scan confDup).private_key.getD [] ∧
    confDupParsed.vpn_address = (scan confDup).address.getD [] ∧
    confDupParsed.dns = (scan confDup).dns ∧
    confDupParsed.server_public_key_b64 = (scan confDup).server_public_key.getD [] ∧
    confDupParsed.allowed_ips = (scan confDup).allowed_ips ∧
    confDupParsed.persistent_keepalive = (scan confDup).keepalive :=
  (c10_theorem confDup).2 confDupParsed (by decide)


end CMV
